import Mathlib

/-!
# DHT single-wire sensor decoder (`main/dht.c`)

A shallow embedding of the decoder of `main/dht.c` and of the properties
its specification states about it.

Modelling conventions

* The pin is a stream `pin : Nat → Bool`: `pin n` is the level returned by the
  `n`-th call of `gpio_get_level` made during one read (`true` = high).  The
  busy delays (`ets_delay_us`) and the output-mode wake pulse do not sample the
  pin and are not represented.
* `uint32_t` counters are natural numbers reduced modulo `2 ^ 32`, `uint8_t`
  stores are reduced modulo `256`, `int16_t` stores wrap to the signed 16-bit
  range (the behaviour of GCC, the compiler of the target).
* A loop whose exit depends on the pin runs on fuel; `none` means that the
  fuel was used up before the C function returned.
-/

namespace DHT

/-! ## Constants and types -/

/-- The constant `#define DHT_TIMEOUT_US 85`. -/
def DHT_TIMEOUT_US : Nat := 85

/-- The constant `#define DHT_TIMER_INTERVAL 2`. -/
def DHT_TIMER_INTERVAL : Nat := 2

/-- The constant `#define DHT_DATA_BITS 40`. -/
def DHT_DATA_BITS : Nat := 40

/-- The three `esp_err_t` values the decoder returns. -/
inductive esp_err_t where
  | ESP_OK
  | ESP_ERR_TIMEOUT
  | ESP_ERR_INVALID_CRC
  deriving DecidableEq

/-- The enumeration `dht_sensor_type_t` of `dht.h`. -/
inductive dht_sensor_type_t where
  | DHT_TYPE_DHT11
  | DHT_TYPE_DHT22
  | DHT_TYPE_AM2301
  deriving DecidableEq

/-- The `ESP_LOGE` messages of `dht.c`, in the order they appear there. -/
inductive dht_log where
  /-- Message "Timeout waiting for start signal low". -/
  | start_signal_low
  /-- Message "Timeout waiting for start signal high". -/
  | start_signal_high
  /-- Message "Timeout waiting for data start". -/
  | data_start
  /-- Message "Timeout waiting for data bit %d high". -/
  | data_bit_high (i : Nat)
  /-- Message "Timeout waiting for data bit %d low". -/
  | data_bit_low (i : Nat)
  /-- Message "Checksum failed, data may be corrupted". -/
  | checksum_failed
  deriving DecidableEq

/-- The array `uint8_t data[5]`. -/
structure Frame where
  b0 : Nat
  b1 : Nat
  b2 : Nat
  b3 : Nat
  b4 : Nat
  deriving DecidableEq

/-- Read `data[b]` for `b` in `0..4`. -/
def Frame.get (d : Frame) (b : Nat) : Nat :=
  match b with
  | 0 => d.b0
  | 1 => d.b1
  | 2 => d.b2
  | 3 => d.b3
  | _ => d.b4

/-- Store `data[b] = v` for `b` in `0..4`. -/
def Frame.set (d : Frame) (b : Nat) (v : Nat) : Frame :=
  match b with
  | 0 => { d with b0 := v }
  | 1 => { d with b1 := v }
  | 2 => { d with b2 := v }
  | 3 => { d with b3 := v }
  | _ => { d with b4 := v }

/-- Conversion of an `int` to `int16_t`: reduction modulo `2 ^ 16` into
`-32768 .. 32767`. -/
def to_int16 (x : Int) : Int := (x + 32768) % 65536 - 32768

/-- The C expression `x & m` for an `int` `x` (32-bit two's complement) and a
non-negative mask `m`. -/
def int_and (x : Int) (m : Nat) : Int := (((x % 4294967296).toNat &&& m : Nat) : Int)

/-! ## `dht_await_pin_state` -/

/-- What one call of `dht_await_pin_state` leaves behind. -/
structure AwaitResult where
  /-- The returned `int`: `1` when the level was reached, `0` on timeout. -/
  ret : Nat
  /-- The cell `*duration` after the call (`none` when the pointer is `NULL`). -/
  duration : Option Nat
  /-- The number of pin samples taken so far. -/
  pos : Nat
  deriving DecidableEq

/-- The `for` loop of `dht_await_pin_state`, entered with counter `i` and with
`pos` samples already taken. -/
def await_loop (pin : Nat → Bool) (timeout : Nat) (expected_pin_state : Bool)
    (duration : Option Nat) : Nat → Nat → Nat → Option AwaitResult
  | 0, _, _ => none
  | fuel + 1, i, pos =>
    if i < timeout then
      if pin pos == expected_pin_state then
        some ⟨1, duration.map (fun _ => i), pos + 1⟩
      else
        await_loop pin timeout expected_pin_state duration fuel
          ((i + DHT_TIMER_INTERVAL) % 4294967296) (pos + 1)
    else
      some ⟨0, duration, pos⟩

/-- The function `dht_await_pin_state(pin, timeout, expected_pin_state, duration)`, started
when `pos` samples of the pin have been taken. -/
def dht_await_pin_state (fuel : Nat) (pin : Nat → Bool) (pos : Nat) (timeout : Nat)
    (expected_pin_state : Bool) (duration : Option Nat) : Option AwaitResult :=
  await_loop pin timeout expected_pin_state duration fuel 0 pos

/-! ## `dht_fetch_data` -/

/-- What one call of `dht_fetch_data` leaves behind. -/
structure FetchResult where
  /-- The returned `esp_err_t`. -/
  status : esp_err_t
  /-- The array `data` after the call. -/
  data : Frame
  /-- The number of pin samples taken. -/
  pos : Nat
  /-- The `ESP_LOGE` message emitted, if any. -/
  log : Option dht_log
  deriving DecidableEq

/-- The two stores of the bit loop body,
`if (!m) data[b] = 0; data[b] |= (high_duration > low_duration) << (7 - m);`
with `b = i / 8` and `m = i % 8` held in `uint8_t`. -/
def store_bit (data : Frame) (i : Nat) (low_duration high_duration : Nat) : Frame :=
  let b := i / 8 % 256
  let m := i % 8 % 256
  let data := if m = 0 then data.set b 0 else data
  data.set b ((data.get b ||| ((if high_duration > low_duration then 1 else 0) <<< (7 - m))) % 256)

/-- The loop `for (int i = 0; i < DHT_DATA_BITS; i++)` of `dht_fetch_data` with
`n` iterations left, entered at index `i`.  The locals `low_duration` and
`high_duration` are uninitialised in C; each is written by its await before it
is read, and its cell is given the content `0` here. -/
def fetch_bits (fuel : Nat) (pin : Nat → Bool) :
    Nat → Nat → Nat → Frame → Option FetchResult
  | 0, _, pos, data => some ⟨.ESP_OK, data, pos, none⟩
  | n + 1, i, pos, data =>
    match dht_await_pin_state fuel pin pos DHT_TIMEOUT_US true (some 0) with
    | none => none
    | some lo =>
      if lo.ret = 0 then
        some ⟨.ESP_ERR_TIMEOUT, data, lo.pos, some (.data_bit_high i)⟩
      else
        match dht_await_pin_state fuel pin lo.pos DHT_TIMEOUT_US false (some 0) with
        | none => none
        | some hi =>
          if hi.ret = 0 then
            some ⟨.ESP_ERR_TIMEOUT, data, hi.pos, some (.data_bit_low i)⟩
          else
            fetch_bits fuel pin n (i + 1) hi.pos
              (store_bit data i (lo.duration.getD 0) (hi.duration.getD 0))

/-- The function `dht_fetch_data(pin, data)`: the three handshake awaits (phases B, C, D)
followed by the bit loop. -/
def dht_fetch_data (fuel : Nat) (pin : Nat → Bool) (data : Frame) : Option FetchResult :=
  match dht_await_pin_state fuel pin 0 DHT_TIMEOUT_US false none with
  | none => none
  | some rb =>
    if rb.ret = 0 then
      some ⟨.ESP_ERR_TIMEOUT, data, rb.pos, some .start_signal_low⟩
    else
      match dht_await_pin_state fuel pin rb.pos DHT_TIMEOUT_US true none with
      | none => none
      | some rc =>
        if rc.ret = 0 then
          some ⟨.ESP_ERR_TIMEOUT, data, rc.pos, some .start_signal_high⟩
        else
          match dht_await_pin_state fuel pin rc.pos DHT_TIMEOUT_US false none with
          | none => none
          | some rd =>
            if rd.ret = 0 then
              some ⟨.ESP_ERR_TIMEOUT, data, rd.pos, some .data_start⟩
            else
              fetch_bits fuel pin DHT_DATA_BITS 0 rd.pos data

/-! ## `dht_read_data` -/

/-- What one call of `dht_read_data` leaves behind. -/
structure ReadResult where
  /-- The returned `esp_err_t`. -/
  status : esp_err_t
  /-- The cell `*humidity` after the call. -/
  humidity : Int
  /-- The cell `*temperature` after the call. -/
  temperature : Int
  /-- The number of pin samples taken. -/
  pos : Nat
  /-- The `ESP_LOGE` message emitted, if any. -/
  log : Option dht_log
  deriving DecidableEq

/-- The function `dht_read_data(sensor_type, pin, humidity, temperature)`; `humidity` and
`temperature` are the contents of the two output cells before the call. -/
def dht_read_data (fuel : Nat) (sensor_type : dht_sensor_type_t) (pin : Nat → Bool)
    (humidity temperature : Int) : Option ReadResult :=
  match dht_fetch_data fuel pin ⟨0, 0, 0, 0, 0⟩ with
  | none => none
  | some f =>
    if f.status ≠ .ESP_OK then
      some ⟨f.status, humidity, temperature, f.pos, f.log⟩
    else
      let data := f.data
      if data.get 4 ≠ (data.get 0 + data.get 1 + data.get 2 + data.get 3) &&& 0xFF then
        some ⟨.ESP_ERR_INVALID_CRC, humidity, temperature, f.pos, some .checksum_failed⟩
      else if sensor_type = .DHT_TYPE_DHT11 then
        some ⟨.ESP_OK, to_int16 (data.get 0 * 10), to_int16 (data.get 2 * 10), f.pos, none⟩
      else
        let humidity := to_int16 (((data.get 0 <<< 8) ||| data.get 1 : Nat) : Int)
        let temperature := to_int16 (((data.get 2 <<< 8) ||| data.get 3 : Nat) : Int)
        let temperature :=
          if int_and temperature 0x8000 ≠ 0 then to_int16 (-(int_and temperature 0x7FFF))
          else temperature
        some ⟨.ESP_OK, humidity, temperature, f.pos, none⟩

/-! ## `dht_read_float_data` -/

/-- A finite binary32 value `sig * 2 ^ exp`.  Zero is `⟨0, 0⟩`; a non-zero
value is kept normalised, `2 ^ 23 ≤ |sig| < 2 ^ 24`. -/
structure F32 where
  sig : Int
  exp : Int
  deriving DecidableEq

/-- The rational number a binary32 value stands for. -/
def F32.toRat (x : F32) : ℚ := (x.sig : ℚ) * (2 : ℚ) ^ x.exp

/-- The fraction `a / d * 2 ^ (-e)` as numerator and denominator. -/
def f32_scale (a d : Nat) (e : Int) : Nat × Nat :=
  if e ≤ 0 then (a * 2 ^ (-e).toNat, d) else (a, d * 2 ^ e.toNat)

/-- The number of binary digits of `n`, counted with at most `fuel` halvings. -/
def bit_length : Nat → Nat → Nat
  | 0, _ => 0
  | fuel + 1, n => if n = 0 then 0 else bit_length fuel (n / 2) + 1

/-- The binary exponent for the quotient `a / d`: the `e` with
`2 ^ 23 ≤ a / d * 2 ^ (-e) < 2 ^ 24`, found from the bit lengths of `a` and
`d` and one comparison. -/
def f32_exponent (a d : Nat) : Int :=
  let e0 : Int := (bit_length a a : Int) - (bit_length d d : Int) - 24
  let s0 := f32_scale a d e0
  if s0.1 / s0.2 < 2 ^ 24 then e0 else e0 + 1

/-- The fraction `s.1 / s.2` rounded to the nearest integer, ties to even. -/
def f32_round (s : Nat × Nat) : Nat :=
  let q := s.1 / s.2
  let r := s.1 % s.2
  if s.2 < 2 * r ∨ (2 * r = s.2 ∧ q % 2 = 1) then q + 1 else q

/-- The C expression `n / d` evaluated in `float`, for integers `n` and
`d > 0` that binary32 holds exactly (`|n|, d < 2 ^ 24`): the exact quotient
rounded to the nearest binary32 value, ties to even (IEEE 754 division).
Quotients of such integers lie in the normal range, so neither overflow nor
subnormal results are represented. -/
def f32_div_int (n : Int) (d : Nat) : F32 :=
  let a := n.natAbs
  if a = 0 ∨ d = 0 then ⟨0, 0⟩
  else
    let e := f32_exponent a d
    let sig := f32_round (f32_scale a d e)
    let sig' : Nat := if sig = 2 ^ 24 then 2 ^ 23 else sig
    let e' : Int := if sig = 2 ^ 24 then e + 1 else e
    ⟨if n < 0 then -(sig' : Int) else (sig' : Int), e'⟩

/-- What one call of `dht_read_float_data` leaves behind. -/
structure FloatResult where
  /-- The returned `esp_err_t`. -/
  status : esp_err_t
  /-- The cell `*humidity` after the call. -/
  humidity : F32
  /-- The cell `*temperature` after the call. -/
  temperature : F32
  /-- The number of pin samples taken. -/
  pos : Nat
  /-- The `ESP_LOGE` message emitted, if any. -/
  log : Option dht_log
  deriving DecidableEq

/-- The function `dht_read_float_data(sensor_type, pin, humidity, temperature)`; `humidity`
and `temperature` are the contents of the two `float` cells before the call.
The locals `h` and `t` are uninitialised in C and read only after
`dht_read_data` has written them; their cells are given the content `0`. -/
def dht_read_float_data (fuel : Nat) (sensor_type : dht_sensor_type_t) (pin : Nat → Bool)
    (humidity temperature : F32) : Option FloatResult :=
  match dht_read_data fuel sensor_type pin 0 0 with
  | none => none
  | some r =>
    if r.status = .ESP_OK then
      some ⟨r.status, f32_div_int r.humidity 10, f32_div_int r.temperature 10, r.pos, r.log⟩
    else
      some ⟨r.status, humidity, temperature, r.pos, r.log⟩

/-! ## A simulated sensor

Pin streams on which the decoder can be run: the sensor answers the wake pulse
at once and sends each bit as one high sample after the low phase (`0`) or two
(`1`), so that the measured durations are `(0, 0)` for a `0` and `(0, 2)` for a
`1`. -/

/-- The samples of one data bit. -/
def sensor_bit (b : Bool) : List Bool := if b then [true, true, false] else [true, false]

/-- The bits of a byte, most significant first. -/
def byte_bits (v : Nat) : List Bool := [7, 6, 5, 4, 3, 2, 1, 0].map (fun k => v.testBit k)

/-- The samples of a whole transmission: response low, response high, data
start, then the 40 bits of the frame. -/
def sensor_samples (f : Frame) : List Bool :=
  [false, true, false] ++
    (byte_bits f.b0 ++ byte_bits f.b1 ++ byte_bits f.b2 ++ byte_bits f.b3
      ++ byte_bits f.b4).flatMap sensor_bit

/-- The pin of a sensor that sends the frame `f` and then leaves the line high. -/
def sensor_pin (f : Frame) : Nat → Bool := fun n => (sensor_samples f).getD n true

/-- The pin of a sensor that sends only the first `n` samples of the
transmission of `f` and then holds the line at `level`. -/
def stuck_pin (f : Frame) (n : Nat) (level : Bool) : Nat → Bool :=
  fun k => ((sensor_samples f).take n).getD k level

/-! ## The awaits of one read, in order -/

/-- The level the `k`-th await of a read waits for: low for ResponseLow
(`k = 0`), high for ResponseHigh (`k = 1`), low for DataReady (`k = 2`), then
for bit `i` high (`k = 3 + 2 * i`) and low (`k = 4 + 2 * i`). -/
def await_level (k : Nat) : Bool := k % 2 == 1

/-- The outcome of the `k`-th await of a read on `pin`: it starts where the
previous await stopped, and it is `none` when an earlier await timed out, so
that it is not performed. -/
def await_nth (fuel : Nat) (pin : Nat → Bool) : Nat → Option AwaitResult
  | 0 => dht_await_pin_state fuel pin 0 DHT_TIMEOUT_US (await_level 0) (some 0)
  | k + 1 =>
    match await_nth fuel pin k with
    | none => none
    | some r =>
      if r.ret = 0 then none
      else dht_await_pin_state fuel pin r.pos DHT_TIMEOUT_US (await_level (k + 1)) (some 0)

/-- The low-phase duration measured for bit `i` (the await for high). -/
def low_duration (fuel : Nat) (pin : Nat → Bool) (i : Nat) : Nat :=
  ((await_nth fuel pin (3 + 2 * i)).bind (fun r => r.duration)).getD 0

/-- The high-phase duration measured for bit `i` (the await for low). -/
def high_duration (fuel : Nat) (pin : Nat → Bool) (i : Nat) : Nat :=
  ((await_nth fuel pin (4 + 2 * i)).bind (fun r => r.duration)).getD 0

/-- The `ESP_LOGE` message that belongs to a timeout of the `k`-th await. -/
def timeout_log (k : Nat) : dht_log :=
  if k = 0 then .start_signal_low
  else if k = 1 then .start_signal_high
  else if k = 2 then .data_start
  else if k % 2 = 1 then .data_bit_high ((k - 3) / 2)
  else .data_bit_low ((k - 4) / 2)


/-! ## The stores of the bit loop, taken together -/

/-- The stores of the bit loop for the durations `lo i`, `hi i`: `n` iterations
from index `i`. -/
def store_bits (lo hi : Nat → Nat) : Nat → Nat → Frame → Frame
  | 0, _, data => data
  | n + 1, i, data => store_bits lo hi n (i + 1) (store_bit data i (lo i) (hi i))

/-- One store `v | (c << s)` into a `uint8_t`. -/
def or_bit (v : Nat) (c : Bool) (s : Nat) : Nat := (v ||| ((if c then 1 else 0) <<< s)) % 256

/-- The value of a byte after the eight stores of the bit loop that fill it,
for the decisions `c0` (first captured) to `c7` (last captured). -/
def pack8 (c0 c1 c2 c3 c4 c5 c6 c7 : Bool) : Nat :=
  or_bit (or_bit (or_bit (or_bit (or_bit (or_bit (or_bit (or_bit 0 c0 7) c1 6) c2 5) c3 4)
    c4 3) c5 2) c6 1) c7 0

/-- The byte the bit loop leaves in `data[b]`. -/
def packed_byte (lo hi : Nat → Nat) (b : Nat) : Nat :=
  pack8 (decide (lo (8 * b) < hi (8 * b)))
    (decide (lo (8 * b + 1) < hi (8 * b + 1))) (decide (lo (8 * b + 2) < hi (8 * b + 2)))
    (decide (lo (8 * b + 3) < hi (8 * b + 3))) (decide (lo (8 * b + 4) < hi (8 * b + 4)))
    (decide (lo (8 * b + 5) < hi (8 * b + 5))) (decide (lo (8 * b + 6) < hi (8 * b + 6)))
    (decide (lo (8 * b + 7) < hi (8 * b + 7)))

/-! ## `read_dht11` and `dht11_task` (`main/main.c`) -/

/-- The conversion `(float)n` of a byte, or of any `n < 2 ^ 24`: the value `n`
itself, normalised. -/
def f32_of_nat (n : Nat) : F32 :=
  if n = 0 then ⟨0, 0⟩
  else ⟨((n * 2 ^ (24 - bit_length n n) : Nat) : Int), (bit_length n n : Int) - 24⟩

/-- The test `isnan(x)`: `F32` holds finite values only, and `read_dht11`
writes converted bytes, so the test is false on every value in the model. -/
def f32_isnan (_x : F32) : Bool := false

/-- The comparison `x == 0.0`. -/
def f32_is_zero (x : F32) : Bool := x.sig == 0

/-- One loop
`while (gpio_get_level(DHT11_PIN) == level && timeout < 100) { esp_rom_delay_us(1); timeout++; }`
of `read_dht11`, entered with the counter `timeout` and with `pos` samples
taken; it gives the counter and the samples taken at the exit.  The pin is
sampled before the counter is tested.  The body runs at most `100 - timeout`
times, so the recursion is on a bound that `101` units never use up. -/
def dht11_wait_loop (pin : Nat → Bool) (level : Bool) : Nat → Nat → Nat → Nat × Nat
  | 0, timeout, pos => (timeout, pos)
  | fuel + 1, timeout, pos =>
    if pin pos == level && decide (timeout < 100) then
      dht11_wait_loop pin level fuel (timeout + 1) (pos + 1)
    else
      (timeout, pos + 1)

/-- The statement `timeout = 0;` followed by one wait loop of `read_dht11`. -/
def dht11_wait (pin : Nat → Bool) (pos : Nat) (level : Bool) : Nat × Nat :=
  dht11_wait_loop pin level 101 0 pos

/-- The two stores of the bit loop body of `read_dht11`,
`data[i / 8] <<= 1; if (timeout > 40) data[i / 8] |= 1;`. -/
def dht11_store_bit (data : Frame) (i : Nat) (timeout : Nat) : Frame :=
  let data := data.set (i / 8) ((data.get (i / 8) <<< 1) % 256)
  if timeout > 40 then data.set (i / 8) ((data.get (i / 8) ||| 1) % 256) else data

/-- The loop `for (int i = 0; i < 40; i++)` of `read_dht11` with `n` iterations
left, entered at index `i`: whether all waits succeeded, the array `data` and
the samples taken. -/
def dht11_bits (pin : Nat → Bool) : Nat → Nat → Nat → Frame → Bool × Frame × Nat
  | 0, _, pos, data => (true, data, pos)
  | n + 1, i, pos, data =>
    let lo := dht11_wait pin pos false
    if lo.1 ≥ 100 then (false, data, lo.2)
    else
      let hi := dht11_wait pin lo.2 true
      if hi.1 ≥ 100 then (false, data, hi.2)
      else dht11_bits pin n (i + 1) hi.2 (dht11_store_bit data i hi.1)

/-- What one call of `read_dht11` leaves behind. -/
structure Dht11Result where
  /-- The returned `bool`. -/
  ret : Bool
  /-- The cell `*temperature` after the call. -/
  temperature : F32
  /-- The cell `*humidity` after the call. -/
  humidity : F32
  /-- The local array `data` at the return. -/
  data : Frame
  /-- The number of pin samples taken. -/
  pos : Nat
  deriving DecidableEq

/-- The function `read_dht11(temperature, humidity)` of `main.c`; `temperature`
and `humidity` are the contents of the two output cells before the call. -/
def main_read_dht11 (pin : Nat → Bool) (temperature humidity : F32) : Dht11Result :=
  let data : Frame := ⟨0, 0, 0, 0, 0⟩
  let w0 := dht11_wait pin 0 true
  if w0.1 ≥ 100 then ⟨false, temperature, humidity, data, w0.2⟩
  else
    let w1 := dht11_wait pin w0.2 false
    if w1.1 ≥ 100 then ⟨false, temperature, humidity, data, w1.2⟩
    else
      let w2 := dht11_wait pin w1.2 true
      if w2.1 ≥ 100 then ⟨false, temperature, humidity, data, w2.2⟩
      else
        let b := dht11_bits pin 40 0 w2.2 data
        if b.1 = false then ⟨false, temperature, humidity, b.2.1, b.2.2⟩
        else
          let data := b.2.1
          let checksum := (data.get 0 + data.get 1 + data.get 2 + data.get 3) % 256
          if checksum ≠ data.get 4 then ⟨false, temperature, humidity, data, b.2.2⟩
          else ⟨true, f32_of_nat (data.get 2), f32_of_nat (data.get 0), data, b.2.2⟩

/-- The variables `dht11_task` reads and writes: the globals `room_temp` and
`room_humidity` and the locals `temp` and `hum`. -/
structure TaskState where
  room_temp : F32
  room_humidity : F32
  temp : F32
  hum : F32
  deriving DecidableEq

/-- One pass of the `while (1)` body of `dht11_task`, as far as it touches the
cached reading; `pin` holds the samples of this pass. -/
def dht11_task_step (pin : Nat → Bool) (s : TaskState) : TaskState :=
  let r := main_read_dht11 pin s.temp s.hum
  if r.ret then
    if !f32_isnan r.temperature && !f32_isnan r.humidity then
      ⟨r.temperature, r.humidity, r.temperature, r.humidity⟩
    else
      ⟨⟨0, 0⟩, ⟨0, 0⟩, r.temperature, r.humidity⟩
  else
    ⟨⟨0, 0⟩, ⟨0, 0⟩, r.temperature, r.humidity⟩

/-- The assignment
`sensor_connectivity = !(room_temp == 0.0 && room_humidity == 0.0);` of
`sensor_check_task`. -/
def sensor_connectivity (s : TaskState) : Bool :=
  !(f32_is_zero s.room_temp && f32_is_zero s.room_humidity)

/-! ## The waits of one `read_dht11`, in order -/

/-- The level the `k`-th wait loop of `read_dht11` polls through: high for the
response start (`k = 0`), low and high for the two response phases, then for
bit `i` low (`k = 3 + 2 * i`) and high (`k = 4 + 2 * i`). -/
def dht11_wait_level (k : Nat) : Bool := k % 2 == 0

/-- The counter and the samples taken at the exit of the `k`-th wait loop of
`read_dht11` on `pin`; `none` when an earlier loop timed out. -/
def dht11_wait_nth (pin : Nat → Bool) : Nat → Option (Nat × Nat)
  | 0 => some (dht11_wait pin 0 (dht11_wait_level 0))
  | k + 1 =>
    match dht11_wait_nth pin k with
    | none => none
    | some w =>
      if w.1 ≥ 100 then none
      else some (dht11_wait pin w.2 (dht11_wait_level (k + 1)))

/-- The poll count of the low phase before bit `i`. -/
def dht11_low_count (pin : Nat → Bool) (i : Nat) : Nat :=
  ((dht11_wait_nth pin (3 + 2 * i)).map (fun w => w.1)).getD 0

/-- The poll count of the high phase of bit `i`, the `timeout` that
`read_dht11` compares with 40. -/
def dht11_high_count (pin : Nat → Bool) (i : Nat) : Nat :=
  ((dht11_wait_nth pin (4 + 2 * i)).map (fun w => w.1)).getD 0

/-- The stores of the bit loop of `read_dht11` for the counts `cnt i`: `n`
iterations from index `i`. -/
def dht11_store_bits (cnt : Nat → Nat) : Nat → Nat → Frame → Frame
  | 0, _, data => data
  | n + 1, i, data => dht11_store_bits cnt n (i + 1) (dht11_store_bit data i (cnt i))

/-- One store pair `v <<= 1; if (c) v |= 1;` on a `uint8_t`. -/
def shl_bit (v : Nat) (c : Bool) : Nat :=
  if c then (((v <<< 1) % 256) ||| 1) % 256 else (v <<< 1) % 256

/-- The result of `read_dht11` on a captured frame: the checksum test and the
two conversions. -/
def dht11_parse (data : Frame) (temperature humidity : F32) (pos : Nat) : Dht11Result :=
  if (data.get 0 + data.get 1 + data.get 2 + data.get 3) % 256 ≠ data.get 4 then
    ⟨false, temperature, humidity, data, pos⟩
  else ⟨true, f32_of_nat (data.get 2), f32_of_nat (data.get 0), data, pos⟩

/-! ## Simulated sensors for `read_dht11` -/

/-- The samples of one data bit for `read_dht11`: a high phase of 1 poll for a
`0` and of 42 polls for a `1`. -/
def dht11_sensor_bit (b : Bool) : List Bool :=
  if b then List.replicate 43 true ++ [false] else [true, false]

/-- The samples of a whole transmission for `read_dht11`. -/
def dht11_sensor_samples (f : Frame) : List Bool :=
  [false, true, false] ++
    (byte_bits f.b0 ++ byte_bits f.b1 ++ byte_bits f.b2 ++ byte_bits f.b3
      ++ byte_bits f.b4).flatMap dht11_sensor_bit

/-- The pin of a sensor that sends the frame `f` to `read_dht11`. -/
def dht11_sensor_pin (f : Frame) : Nat → Bool := fun n => (dht11_sensor_samples f).getD n true

/-- The samples of a transmission whose first bit has a low phase of `nl`
further samples and a high phase of `nh` further samples, and whose other 39
bits are short. -/
def pulse_samples (nl nh : Nat) : List Bool :=
  [false, true, false] ++ List.replicate nl false ++ [true] ++ List.replicate nh true
    ++ [false] ++ (List.replicate 39 [true, false]).flatten

/-- The pin that yields `pulse_samples nl nh`. -/
def pulse_pin (nl nh : Nat) : Nat → Bool := fun n => (pulse_samples nl nh).getD n true

/-! ## The await returns -/

theorem await_loop_mono (pin : Nat → Bool) (timeout : Nat) (e : Bool) (d : Option Nat) :
    ∀ (fuel i pos : Nat) (r : AwaitResult),
      await_loop pin timeout e d fuel i pos = some r →
      ∀ fuel', fuel ≤ fuel' → await_loop pin timeout e d fuel' i pos = some r := by
  intro fuel
  induction fuel with
  | zero => intro i pos r h; simp [await_loop] at h
  | succ n ih =>
    intro i pos r h fuel' hle
    obtain ⟨m, rfl⟩ : ∃ m, fuel' = m + 1 := ⟨fuel' - 1, by omega⟩
    unfold await_loop at h ⊢
    by_cases hlt : i < timeout
    · by_cases hp : (pin pos == e) = true
      · simpa [hlt, hp] using h
      · simp only [hlt, hp, if_true, if_false] at h ⊢
        exact ih _ _ _ h m (by omega)
    · simpa [hlt] using h

theorem await_loop_returns (pin : Nat → Bool) (timeout : Nat) (e : Bool) (d : Option Nat)
    (ht : timeout + 2 ≤ 4294967296) :
    ∀ (fuel i pos : Nat), timeout < i + 2 * fuel →
      ∃ r, await_loop pin timeout e d (fuel + 1) i pos = some r := by
  intro fuel
  induction fuel with
  | zero =>
    intro i pos h
    have : ¬ i < timeout := by omega
    simp [await_loop, this]
  | succ n ih =>
    intro i pos h
    unfold await_loop
    by_cases hlt : i < timeout
    · by_cases hp : (pin pos == e) = true
      · simp [hlt, hp]
      · simp only [hlt, hp, if_true, if_false]
        have hmod : (i + DHT_TIMER_INTERVAL) % 4294967296 = i + 2 := by
          simp only [DHT_TIMER_INTERVAL]; omega
        rw [hmod]
        exact ih _ _ (by omega)
    · simp [hlt]

theorem await_returns (fuel : Nat) (hfuel : 44 ≤ fuel) (pin : Nat → Bool) (pos : Nat)
    (e : Bool) (d : Option Nat) :
    ∃ r, dht_await_pin_state fuel pin pos DHT_TIMEOUT_US e d = some r := by
  obtain ⟨m, rfl⟩ : ∃ m, fuel = m + 1 := ⟨fuel - 1, by omega⟩
  exact await_loop_returns pin DHT_TIMEOUT_US e d (by decide) m 0 pos
    (by simp only [DHT_TIMEOUT_US]; omega)

theorem await_fuel (fuel : Nat) (hfuel : 44 ≤ fuel) (pin : Nat → Bool) (pos : Nat)
    (e : Bool) (d : Option Nat) :
    dht_await_pin_state fuel pin pos DHT_TIMEOUT_US e d
      = dht_await_pin_state 44 pin pos DHT_TIMEOUT_US e d := by
  obtain ⟨r, hr⟩ := await_returns 44 (le_refl _) pin pos e d
  rw [hr]
  exact await_loop_mono pin DHT_TIMEOUT_US e d 44 0 pos r hr fuel hfuel

theorem await_loop_ret (pin : Nat → Bool) (timeout : Nat) (e : Bool) (d : Option Nat) :
    ∀ (fuel i pos : Nat) (r : AwaitResult),
      await_loop pin timeout e d fuel i pos = some r → r.ret = 0 ∨ r.ret = 1 := by
  intro fuel
  induction fuel with
  | zero => intro i pos r h; simp [await_loop] at h
  | succ n ih =>
    intro i pos r h
    unfold await_loop at h
    by_cases hlt : i < timeout
    · by_cases hp : (pin pos == e) = true
      · simp only [hlt, hp, if_true, Option.some.injEq] at h
        subst h; exact Or.inr rfl
      · simp only [hlt, hp, if_true, if_false] at h
        exact ih _ _ _ h
    · simp only [hlt, if_false, Option.some.injEq] at h
      subst h; exact Or.inl rfl

/-- The returned value and the samples taken do not depend on the duration
cell: every call is the call with the cell `some 0`, with the cell put back. -/
theorem await_loop_cell (pin : Nat → Bool) (timeout : Nat) (e : Bool) (d : Option Nat) :
    ∀ (fuel i pos : Nat),
      await_loop pin timeout e d fuel i pos
        = (await_loop pin timeout e (some 0) fuel i pos).map
            (fun r => ⟨r.ret, if r.ret = 0 then d else d.map (fun _ => r.duration.getD 0), r.pos⟩) := by
  intro fuel
  induction fuel with
  | zero => intro i pos; simp [await_loop]
  | succ n ih =>
    intro i pos
    unfold await_loop
    by_cases hlt : i < timeout
    · by_cases hp : (pin pos == e) = true
      · simp [hlt, hp]
      · simp only [hlt, hp, if_true, if_false]
        exact ih _ _
    · simp [hlt]


/-! ## The read follows the awaits in order -/

theorem await_nth_succ (fuel : Nat) (pin : Nat → Bool) (k : Nat) (r : AwaitResult)
    (h : await_nth fuel pin k = some r) (hr : r.ret ≠ 0) :
    await_nth fuel pin (k + 1)
      = dht_await_pin_state fuel pin r.pos DHT_TIMEOUT_US (await_level (k + 1)) (some 0) := by
  simp [await_nth, h, hr]

theorem await_level_odd (i : Nat) : await_level (2 + 2 * i + 1) = true := by
  simp [await_level]; omega

theorem await_level_even (i : Nat) : await_level (3 + 2 * i + 1) = false := by
  simp [await_level]; omega

theorem timeout_log_high (i : Nat) : timeout_log (3 + 2 * i) = .data_bit_high i := by
  have h1 : (3 + 2 * i) % 2 = 1 := by omega
  have h2 : (3 + 2 * i - 3) / 2 = i := by omega
  have h4 : 3 + 2 * i ≠ 1 := by omega
  have h5 : 3 + 2 * i ≠ 2 := by omega
  simp [timeout_log, h1, h2, h4, h5]

theorem timeout_log_low (i : Nat) : timeout_log (4 + 2 * i) = .data_bit_low i := by
  have h1 : (4 + 2 * i) % 2 ≠ 1 := by omega
  have h2 : (4 + 2 * i - 4) / 2 = i := by omega
  have h3 : 4 + 2 * i ≠ 0 := by omega
  have h4 : 4 + 2 * i ≠ 1 := by omega
  have h5 : 4 + 2 * i ≠ 2 := by omega
  simp [timeout_log, h1, h2, h3, h4, h5]

/-- The bit loop, entered after await `2 + 2 * i` succeeded at `pos`: either
some later await `k` times out, and the loop returns `ESP_ERR_TIMEOUT` there
with the message of `k`, or all awaits succeed and the loop returns `ESP_OK`
with the bits stored. -/
theorem fetch_bits_spec (fuel : Nat) (hfuel : 44 ≤ fuel) (pin : Nat → Bool) :
    ∀ (n i pos : Nat) (data : Frame) (prev : AwaitResult),
      await_nth fuel pin (2 + 2 * i) = some prev → prev.ret ≠ 0 → prev.pos = pos →
      (∃ k a data', 3 + 2 * i ≤ k ∧ k < 3 + 2 * (i + n) ∧
          await_nth fuel pin k = some a ∧ a.ret = 0 ∧
          fetch_bits fuel pin n i pos data
            = some ⟨.ESP_ERR_TIMEOUT, data', a.pos, some (timeout_log k)⟩)
      ∨ (∃ last, await_nth fuel pin (2 + 2 * (i + n)) = some last ∧ last.ret ≠ 0 ∧
          fetch_bits fuel pin n i pos data
            = some ⟨.ESP_OK, store_bits (low_duration fuel pin) (high_duration fuel pin) n i data,
                last.pos, none⟩) := by
  intro n
  induction n with
  | zero =>
    intro i pos data prev hprev hret hpos
    exact Or.inr ⟨prev, by simpa using hprev, hret, by simp [fetch_bits, store_bits, hpos]⟩
  | succ n ih =>
    intro i pos data prev hprev hret hpos
    have hlo := await_nth_succ fuel pin _ prev hprev hret
    rw [await_level_odd, hpos] at hlo
    obtain ⟨lo, hlo'⟩ := await_returns fuel hfuel pin pos true (some 0)
    rw [hlo'] at hlo
    have e3 : 2 + 2 * i + 1 = 3 + 2 * i := by omega
    rw [e3] at hlo
    by_cases hlr : lo.ret = 0
    · refine Or.inl ⟨3 + 2 * i, lo, data, le_refl _, by omega, hlo, hlr, ?_⟩
      simp [fetch_bits, hlo', hlr, timeout_log_high]
    · have hhi := await_nth_succ fuel pin _ lo hlo hlr
      rw [await_level_even] at hhi
      obtain ⟨hi, hhi'⟩ := await_returns fuel hfuel pin lo.pos false (some 0)
      rw [hhi'] at hhi
      have e4 : 3 + 2 * i + 1 = 4 + 2 * i := by omega
      rw [e4] at hhi
      by_cases hhr : hi.ret = 0
      · refine Or.inl ⟨4 + 2 * i, hi, data, by omega, by omega, hhi, hhr, ?_⟩
        simp [fetch_bits, hlo', hlr, hhi', hhr, timeout_log_low]
      · have e5 : 2 + 2 * (i + 1) = 4 + 2 * i := by omega
        have hl : low_duration fuel pin i = lo.duration.getD 0 := by
          simp [low_duration, hlo]
        have hh : high_duration fuel pin i = hi.duration.getD 0 := by
          simp [high_duration, hhi]
        rcases ih (i + 1) hi.pos
            (store_bit data i (lo.duration.getD 0) (hi.duration.getD 0)) hi
            (by rw [e5]; exact hhi) hhr rfl with
          ⟨k, a, data', h1, h2, h3, h4, h5⟩ | ⟨last, h1, h2, h3⟩
        · refine Or.inl ⟨k, a, data', by omega, by omega, h3, h4, ?_⟩
          simp [fetch_bits, hlo', hlr, hhi', hhr, h5]
        · refine Or.inr ⟨last, ?_, h2, ?_⟩
          · have e6 : 2 + 2 * (i + (n + 1)) = 2 + 2 * (i + 1 + n) := by omega
            rw [e6]; exact h1
          · simp [fetch_bits, hlo', hlr, hhi', hhr, h3, store_bits, hl, hh]


theorem await_cell_none (fuel : Nat) (pin : Nat → Bool) (pos timeout : Nat) (e : Bool) :
    dht_await_pin_state fuel pin pos timeout e none
      = (dht_await_pin_state fuel pin pos timeout e (some 0)).map
          (fun r => ⟨r.ret, none, r.pos⟩) := by
  unfold dht_await_pin_state
  rw [await_loop_cell]
  simp

/-- The whole capture: either some await `k < 83` times out, and
`dht_fetch_data` returns `ESP_ERR_TIMEOUT` where that await stopped, with the
message of `k`; or all 83 awaits succeed and it returns `ESP_OK` with the 40
bits stored. -/
theorem fetch_spec (fuel : Nat) (hfuel : 44 ≤ fuel) (pin : Nat → Bool) (data : Frame) :
    (∃ k a data', k < 83 ∧ await_nth fuel pin k = some a ∧ a.ret = 0 ∧
        dht_fetch_data fuel pin data
          = some ⟨.ESP_ERR_TIMEOUT, data', a.pos, some (timeout_log k)⟩)
    ∨ (∃ last, await_nth fuel pin 82 = some last ∧ last.ret ≠ 0 ∧
        dht_fetch_data fuel pin data
          = some ⟨.ESP_OK,
              store_bits (low_duration fuel pin) (high_duration fuel pin) DHT_DATA_BITS 0 data,
              last.pos, none⟩) := by
  obtain ⟨rb, hb⟩ := await_returns fuel hfuel pin 0 false (some 0)
  have h0 : await_nth fuel pin 0 = some rb := by
    simpa [await_nth, await_level] using hb
  by_cases hbr : rb.ret = 0
  · refine Or.inl ⟨0, rb, data, by omega, h0, hbr, ?_⟩
    simp [dht_fetch_data, await_cell_none, hb, hbr, timeout_log]
  obtain ⟨rc, hc⟩ := await_returns fuel hfuel pin rb.pos true (some 0)
  have h1 : await_nth fuel pin 1 = some rc := by
    rw [await_nth_succ fuel pin 0 rb h0 hbr]
    simpa [await_level] using hc
  by_cases hcr : rc.ret = 0
  · refine Or.inl ⟨1, rc, data, by omega, h1, hcr, ?_⟩
    simp [dht_fetch_data, await_cell_none, hb, hbr, hc, hcr, timeout_log]
  obtain ⟨rd, hd⟩ := await_returns fuel hfuel pin rc.pos false (some 0)
  have h2 : await_nth fuel pin 2 = some rd := by
    rw [await_nth_succ fuel pin 1 rc h1 hcr]
    simpa [await_level] using hd
  by_cases hdr : rd.ret = 0
  · refine Or.inl ⟨2, rd, data, by omega, h2, hdr, ?_⟩
    simp [dht_fetch_data, await_cell_none, hb, hbr, hc, hcr, hd, hdr, timeout_log]
  rcases fetch_bits_spec fuel hfuel pin DHT_DATA_BITS 0 rd.pos data rd h2 hdr rfl with
    ⟨k, a, data', _, hk, ha, har, hf⟩ | ⟨last, hl, hlr, hf⟩
  · refine Or.inl ⟨k, a, data', by simp only [DHT_DATA_BITS] at hk; omega, ha, har, ?_⟩
    simp [dht_fetch_data, await_cell_none, hb, hbr, hc, hcr, hd, hdr, hf]
  · refine Or.inr ⟨last, hl, hlr, ?_⟩
    simp [dht_fetch_data, await_cell_none, hb, hbr, hc, hcr, hd, hdr, hf]

/-- An await that is performed comes after awaits that all succeeded. -/
theorem await_nth_earlier (fuel : Nat) (pin : Nat → Bool) :
    ∀ (k : Nat) (a : AwaitResult), await_nth fuel pin k = some a →
      ∀ j, j < k → ∃ b, await_nth fuel pin j = some b ∧ b.ret ≠ 0 := by
  intro k
  induction k with
  | zero => intro a _ j hj; omega
  | succ k ih =>
    intro a ha j hj
    cases hk : await_nth fuel pin k with
    | none => simp [await_nth, hk] at ha
    | some b =>
      have hb : b.ret ≠ 0 := by
        intro h0
        simp [await_nth, hk, h0] at ha
      by_cases hjk : j = k
      · subst hjk; exact ⟨b, hk, hb⟩
      · exact ih b hk j (by omega)

/-- At most one await of a read times out. -/
theorem await_nth_fail_unique (fuel : Nat) (pin : Nat → Bool) (j k : Nat) (a b : AwaitResult)
    (hj : await_nth fuel pin j = some a) (ha : a.ret = 0)
    (hk : await_nth fuel pin k = some b) (hb : b.ret = 0) : j = k := by
  rcases Nat.lt_trichotomy j k with h | h | h
  · obtain ⟨c, hc, hc'⟩ := await_nth_earlier fuel pin k b hk j h
    rw [hj] at hc; cases hc; exact absurd ha hc'
  · exact h
  · obtain ⟨c, hc, hc'⟩ := await_nth_earlier fuel pin j a hj k h
    rw [hk] at hc; cases hc; exact absurd hb hc'

theorem await_nth_ret (fuel : Nat) (pin : Nat → Bool) (k : Nat) (a : AwaitResult)
    (h : await_nth fuel pin k = some a) : a.ret = 0 ∨ a.ret = 1 := by
  cases k with
  | zero => exact await_loop_ret _ _ _ _ _ _ _ _ h
  | succ k =>
    cases hk : await_nth fuel pin k with
    | none => simp [await_nth, hk] at h
    | some b =>
      by_cases hb : b.ret = 0
      · simp [await_nth, hk, hb] at h
      · rw [await_nth_succ fuel pin k b hk hb] at h
        exact await_loop_ret _ _ _ _ _ _ _ _ h


/-! ## The packing of the bits -/

theorem pack8_bits : ∀ c0 c1 c2 c3 c4 c5 c6 c7 : Bool,
    pack8 c0 c1 c2 c3 c4 c5 c6 c7 < 256 ∧
    (pack8 c0 c1 c2 c3 c4 c5 c6 c7).testBit 7 = c0 ∧
    (pack8 c0 c1 c2 c3 c4 c5 c6 c7).testBit 6 = c1 ∧
    (pack8 c0 c1 c2 c3 c4 c5 c6 c7).testBit 5 = c2 ∧
    (pack8 c0 c1 c2 c3 c4 c5 c6 c7).testBit 4 = c3 ∧
    (pack8 c0 c1 c2 c3 c4 c5 c6 c7).testBit 3 = c4 ∧
    (pack8 c0 c1 c2 c3 c4 c5 c6 c7).testBit 2 = c5 ∧
    (pack8 c0 c1 c2 c3 c4 c5 c6 c7).testBit 1 = c6 ∧
    (pack8 c0 c1 c2 c3 c4 c5 c6 c7).testBit 0 = c7 := by
  decide

theorem store_bit_first (data : Frame) (b lo hi : Nat) (hb : b < 5) :
    store_bit data (8 * b) lo hi = data.set b (or_bit 0 (decide (lo < hi)) 7) := by
  interval_cases b <;> simp [store_bit, Frame.set, Frame.get, or_bit]

theorem store_bit_next (data : Frame) (b m lo hi : Nat) (hb : b < 5) (hm0 : 0 < m) (hm : m < 8) :
    store_bit data (8 * b + m) lo hi
      = data.set b (or_bit (data.get b) (decide (lo < hi)) (7 - m)) := by
  interval_cases b <;> interval_cases m <;> simp [store_bit, Frame.set, Frame.get, or_bit]

theorem frame_set_set (data : Frame) (b v w : Nat) (hb : b < 5) :
    (data.set b v).set b w = data.set b w := by
  interval_cases b <;> rfl

theorem frame_get_set (data : Frame) (b v : Nat) (hb : b < 5) : (data.set b v).get b = v := by
  interval_cases b <;> rfl

/-- The eight iterations that fill byte `b`. -/
theorem store_bits_byte (lo hi : Nat → Nat) (data : Frame) (b : Nat) (hb : b < 5) :
    store_bits lo hi 8 (8 * b) data
      = data.set b (pack8 (decide (lo (8 * b) < hi (8 * b)))
          (decide (lo (8 * b + 1) < hi (8 * b + 1))) (decide (lo (8 * b + 2) < hi (8 * b + 2)))
          (decide (lo (8 * b + 3) < hi (8 * b + 3))) (decide (lo (8 * b + 4) < hi (8 * b + 4)))
          (decide (lo (8 * b + 5) < hi (8 * b + 5))) (decide (lo (8 * b + 6) < hi (8 * b + 6)))
          (decide (lo (8 * b + 7) < hi (8 * b + 7)))) := by
  simp only [store_bits, Nat.add_assoc, Nat.reduceAdd]
  rw [store_bit_first _ _ _ _ hb,
    store_bit_next _ b 1 _ _ hb (by omega) (by omega),
    store_bit_next _ b 2 _ _ hb (by omega) (by omega),
    store_bit_next _ b 3 _ _ hb (by omega) (by omega),
    store_bit_next _ b 4 _ _ hb (by omega) (by omega),
    store_bit_next _ b 5 _ _ hb (by omega) (by omega),
    store_bit_next _ b 6 _ _ hb (by omega) (by omega),
    store_bit_next _ b 7 _ _ hb (by omega) (by omega)]
  simp only [frame_set_set _ _ _ _ hb, frame_get_set _ _ _ hb, pack8]

theorem store_bits_add (lo hi : Nat → Nat) :
    ∀ (n m i : Nat) (data : Frame),
      store_bits lo hi (n + m) i data = store_bits lo hi m (i + n) (store_bits lo hi n i data) := by
  intro n
  induction n with
  | zero => intro m i data; simp [store_bits]
  | succ n ih =>
    intro m i data
    have e : n + 1 + m = (n + m) + 1 := by omega
    rw [e]
    simp only [store_bits]
    rw [ih]
    have e2 : i + 1 + n = i + (n + 1) := by omega
    rw [e2]


theorem store_bits_frame (lo hi : Nat → Nat) (data : Frame) :
    store_bits lo hi DHT_DATA_BITS 0 data
      = ⟨packed_byte lo hi 0, packed_byte lo hi 1, packed_byte lo hi 2, packed_byte lo hi 3,
          packed_byte lo hi 4⟩ := by
  have e : DHT_DATA_BITS = 8 + (8 + (8 + (8 + 8))) := rfl
  rw [e, store_bits_add, store_bits_add, store_bits_add, store_bits_add]
  have h0 := store_bits_byte lo hi data 0 (by omega)
  rw [show 8 * 0 = 0 from rfl] at h0
  rw [h0]
  have h1 := store_bits_byte lo hi (data.set 0 (packed_byte lo hi 0)) 1 (by omega)
  rw [show 8 * 1 = 0 + 8 from rfl] at h1
  rw [show pack8 _ _ _ _ _ _ _ _ = packed_byte lo hi 0 from rfl, h1]
  have h2 := store_bits_byte lo hi
    ((data.set 0 (packed_byte lo hi 0)).set 1 (packed_byte lo hi 1)) 2 (by omega)
  rw [show 8 * 2 = 0 + 8 + 8 from rfl] at h2
  rw [show pack8 _ _ _ _ _ _ _ _ = packed_byte lo hi 1 from rfl, h2]
  have h3 := store_bits_byte lo hi
    (((data.set 0 (packed_byte lo hi 0)).set 1 (packed_byte lo hi 1)).set 2
      (packed_byte lo hi 2)) 3 (by omega)
  rw [show 8 * 3 = 0 + 8 + 8 + 8 from rfl] at h3
  rw [show pack8 _ _ _ _ _ _ _ _ = packed_byte lo hi 2 from rfl, h3]
  have h4 := store_bits_byte lo hi
    ((((data.set 0 (packed_byte lo hi 0)).set 1 (packed_byte lo hi 1)).set 2
      (packed_byte lo hi 2)).set 3 (packed_byte lo hi 3)) 4 (by omega)
  rw [show 8 * 4 = 0 + 8 + 8 + 8 + 8 from rfl] at h4
  rw [show pack8 _ _ _ _ _ _ _ _ = packed_byte lo hi 3 from rfl, h4]
  rfl

/-- Bit `7 - m` of the byte left in `data[b]` is the decision of bit
`8 * b + m`, and the byte is below `256`. -/
theorem packed_byte_testBit (lo hi : Nat → Nat) (b m : Nat) (hm : m < 8) :
    (packed_byte lo hi b).testBit (7 - m) = decide (lo (8 * b + m) < hi (8 * b + m))
      ∧ packed_byte lo hi b < 256 := by
  have h := pack8_bits (decide (lo (8 * b) < hi (8 * b)))
    (decide (lo (8 * b + 1) < hi (8 * b + 1))) (decide (lo (8 * b + 2) < hi (8 * b + 2)))
    (decide (lo (8 * b + 3) < hi (8 * b + 3))) (decide (lo (8 * b + 4) < hi (8 * b + 4)))
    (decide (lo (8 * b + 5) < hi (8 * b + 5))) (decide (lo (8 * b + 6) < hi (8 * b + 6)))
    (decide (lo (8 * b + 7) < hi (8 * b + 7)))
  obtain ⟨h256, h7, h6, h5, h4, h3, h2, h1, h0⟩ := h
  refine ⟨?_, h256⟩
  interval_cases m
  · exact h7
  · exact h6
  · exact h5
  · exact h4
  · exact h3
  · exact h2
  · exact h1
  · exact h0

/-- Bit `7 - i % 8` of byte `i / 8` of the stored frame is the decision of bit
`i`, and every byte is below `256`. -/
theorem store_bits_testBit (lo hi : Nat → Nat) (data : Frame) (i : Nat) (hi40 : i < 40) :
    ((store_bits lo hi DHT_DATA_BITS 0 data).get (i / 8)).testBit (7 - i % 8)
        = decide (lo i < hi i)
      ∧ (store_bits lo hi DHT_DATA_BITS 0 data).get (i / 8) < 256 := by
  rw [store_bits_frame]
  have hb : i / 8 < 5 := by omega
  have hget : (Frame.mk (packed_byte lo hi 0) (packed_byte lo hi 1) (packed_byte lo hi 2)
      (packed_byte lo hi 3) (packed_byte lo hi 4)).get (i / 8) = packed_byte lo hi (i / 8) := by
    generalize i / 8 = b at hb
    interval_cases b <;> rfl
  rw [hget]
  have h := packed_byte_testBit lo hi (i / 8) (i % 8) (Nat.mod_lt _ (by decide))
  rw [Nat.div_add_mod] at h
  exact h


/-! ## Arithmetic of the parser -/

theorem and_255 (x : Nat) : x &&& 0xFF = x % 256 :=
  Nat.and_pow_two_sub_one_eq_mod x 8

theorem and_0x7FFF (x : Nat) : x &&& 0x7FFF = x % 32768 :=
  Nat.and_pow_two_sub_one_eq_mod x 15

theorem and_0x8000 (x : Nat) : x &&& 0x8000 = if x / 32768 % 2 = 1 then 32768 else 0 := by
  apply Nat.eq_of_testBit_eq
  intro j
  rw [Nat.testBit_and, show (0x8000 : Nat) = 2 ^ 15 from rfl, Nat.testBit_two_pow]
  by_cases hj : 15 = j
  · subst hj
    rw [Nat.testBit_to_div_mod]
    by_cases hx : x / 32768 % 2 = 1
    · have h15 : Nat.testBit 32768 15 = true := by decide
      simp [hx, h15]
    · simp [hx]
  · by_cases hx : x / 32768 % 2 = 1
    · simp [hj, hx, Nat.testBit_two_pow_of_ne hj]
    · simp [hj, hx]

theorem shift_or_byte (hi lo : Nat) (h : lo < 256) : (hi <<< 8) ||| lo = 256 * hi + lo := by
  rw [Nat.shiftLeft_eq, Nat.mul_comm]
  exact (Nat.mul_add_lt_is_or (i := 8) h hi).symm

/-- The temperature of the DHT22 branch, for the 16-bit value `raw`. -/
theorem temperature_decode (raw : Nat) (h : raw < 65536) :
    (if int_and (to_int16 raw) 0x8000 ≠ 0 then to_int16 (-(int_and (to_int16 raw) 0x7FFF))
      else to_int16 raw)
      = if raw < 32768 then (raw : Int) else -((raw &&& 0x7FFF : Nat) : Int) := by
  unfold int_and
  rw [and_0x8000, and_0x7FFF, and_0x7FFF]
  unfold to_int16
  by_cases hr : raw < 32768
  · have e : (((raw : Int) + 32768) % 65536 - 32768) = raw := by omega
    rw [e]
    have e2 : ((raw : Int) % 4294967296).toNat = raw := by omega
    rw [e2]
    have e3 : ¬ raw / 32768 % 2 = 1 := by omega
    simp [e3, hr]
  · have e : (((raw : Int) + 32768) % 65536 - 32768) = (raw : Int) - 65536 := by omega
    rw [e]
    have e2 : (((raw : Int) - 65536) % 4294967296).toNat = raw + 4294901760 := by omega
    rw [e2]
    have e3 : (raw + 4294901760) / 32768 % 2 = 1 := by omega
    have e4 : (raw + 4294901760) % 32768 = raw % 32768 := by omega
    simp only [e3, e4, if_true, hr, if_false]
    have e5 : (32768 : Int) ≠ 0 := by decide
    simp only [Nat.cast_ofNat, ne_eq, e5, not_false_eq_true, if_true]
    omega

theorem to_int16_of_lt (x : Nat) (h : x < 32768) : to_int16 (x : Int) = x := by
  unfold to_int16; omega


theorem frame_get_lt (a0 a1 a2 a3 a4 : Nat) (h0 : a0 < 256) (h1 : a1 < 256) (h2 : a2 < 256)
    (h3 : a3 < 256) (h4 : a4 < 256) (b : Nat) : (Frame.mk a0 a1 a2 a3 a4).get b < 256 := by
  unfold Frame.get
  split <;> assumption

/-- A frame that was captured holds bytes. -/
theorem fetch_ok_bytes (fuel : Nat) (hfuel : 44 ≤ fuel) (pin : Nat → Bool) (data : Frame)
    (f : FetchResult) (hf : dht_fetch_data fuel pin data = some f) (hok : f.status = .ESP_OK)
    (b : Nat) : f.data.get b < 256 := by
  rcases fetch_spec fuel hfuel pin data with ⟨k, a, data', _, _, _, h⟩ | ⟨last, _, _, h⟩
  · rw [hf] at h
    cases h
    cases hok
  · rw [hf] at h
    cases h
    rw [store_bits_frame]
    exact frame_get_lt _ _ _ _ _ (packed_byte_testBit _ _ 0 0 (by omega)).2
      (packed_byte_testBit _ _ 1 0 (by omega)).2 (packed_byte_testBit _ _ 2 0 (by omega)).2
      (packed_byte_testBit _ _ 3 0 (by omega)).2 (packed_byte_testBit _ _ 4 0 (by omega)).2 b

/-- The capture returns, with `ESP_OK` or `ESP_ERR_TIMEOUT`. -/
theorem fetch_returns (fuel : Nat) (hfuel : 44 ≤ fuel) (pin : Nat → Bool) (data : Frame) :
    ∃ f, dht_fetch_data fuel pin data = some f ∧
      (f.status = .ESP_OK ∨ f.status = .ESP_ERR_TIMEOUT) := by
  rcases fetch_spec fuel hfuel pin data with ⟨k, a, data', _, _, _, h⟩ | ⟨last, _, _, h⟩
  · exact ⟨_, h, Or.inr rfl⟩
  · exact ⟨_, h, Or.inl rfl⟩

/-! ## Division in `float` -/

theorem bit_length_zero (fuel : Nat) : bit_length fuel 0 = 0 := by
  cases fuel <;> simp [bit_length]

theorem bit_length_spec : ∀ (fuel n : Nat), n < 2 ^ fuel → n ≠ 0 →
    ∃ l, bit_length fuel n = l + 1 ∧ 2 ^ l ≤ n ∧ n < 2 ^ (l + 1) := by
  intro fuel
  induction fuel with
  | zero => intro n h hn; simp at h; exact absurd h hn
  | succ k ih =>
    intro n h hn
    simp only [bit_length, hn, if_false]
    by_cases h2 : n / 2 = 0
    · refine ⟨0, by simp [h2, bit_length_zero], ?_, ?_⟩ <;> omega
    · have hlt : n / 2 < 2 ^ k := by
        rw [Nat.pow_succ] at h; omega
      obtain ⟨l, hl, h1, h3⟩ := ih (n / 2) hlt h2
      refine ⟨l + 1, by rw [hl], ?_, ?_⟩
      · rw [Nat.pow_succ]; omega
      · rw [Nat.pow_succ] at h3 ⊢; omega

theorem bit_length_self (n : Nat) (hn : n ≠ 0) :
    ∃ l, bit_length n n = l + 1 ∧ 2 ^ l ≤ n ∧ n < 2 ^ (l + 1) :=
  bit_length_spec n n (Nat.lt_two_pow n) hn

/-- The scaled fraction has the value `a / d * 2 ^ (-e)`. -/
theorem f32_scale_value (a d : Nat) (e : Int) (hd : 0 < d) :
    0 < (f32_scale a d e).2 ∧
    ((f32_scale a d e).1 : ℚ) / ((f32_scale a d e).2 : ℚ) = (a : ℚ) / (d : ℚ) * (2 : ℚ) ^ (-e) := by
  unfold f32_scale
  have hd' : (d : ℚ) ≠ 0 := by exact_mod_cast hd.ne'
  by_cases he : e ≤ 0
  · obtain ⟨k, rfl⟩ : ∃ k : ℕ, e = -(k : ℤ) := ⟨(-e).toNat, by omega⟩
    simp only [he, if_true, neg_neg, Int.toNat_ofNat, zpow_natCast]
    refine ⟨hd, ?_⟩
    push_cast
    field_simp
  · obtain ⟨k, rfl⟩ : ∃ k : ℕ, e = (k : ℤ) := ⟨e.toNat, by omega⟩
    simp only [he, if_false, Int.toNat_ofNat, zpow_neg, zpow_natCast]
    refine ⟨Nat.mul_pos hd (Nat.pow_pos (by decide)), ?_⟩
    push_cast
    field_simp

/-- Rounding moves a fraction by at most one half and keeps it between the
integers around it. -/
theorem f32_round_spec (num den : Nat) (hden : 0 < den) :
    |((f32_round (num, den) : Nat) : ℚ) - (num : ℚ) / (den : ℚ)| ≤ 1 / 2 ∧
    num / den ≤ f32_round (num, den) ∧ f32_round (num, den) ≤ num / den + 1 := by
  have hden' : (0 : ℚ) < (den : ℚ) := by exact_mod_cast hden
  have hdm := Nat.div_add_mod num den
  have hr : num % den < den := Nat.mod_lt _ hden
  have hq : (num : ℚ) / (den : ℚ) = ((num / den : Nat) : ℚ) + ((num % den : Nat) : ℚ) / (den : ℚ) := by
    have : (num : ℚ) = (den : ℚ) * ((num / den : Nat) : ℚ) + ((num % den : Nat) : ℚ) := by
      exact_mod_cast hdm.symm
    field_simp
    linarith
  unfold f32_round
  simp only []
  by_cases hup : den < 2 * (num % den) ∨ (2 * (num % den) = den ∧ num / den % 2 = 1)
  · simp only [hup, if_true]
    refine ⟨?_, Nat.le_succ _, le_refl _⟩
    have h2 : (den : ℚ) ≤ 2 * ((num % den : Nat) : ℚ) := by
      rcases hup with h | ⟨h, _⟩
      · exact_mod_cast h.le
      · exact_mod_cast h.ge
    have h3 : ((num % den : Nat) : ℚ) < (den : ℚ) := by exact_mod_cast hr
    rw [hq]
    push_cast
    have h4 : (1 : ℚ) / 2 ≤ ((num % den : Nat) : ℚ) / (den : ℚ) := by
      rw [le_div_iff₀ hden']; linarith
    have h5 : ((num % den : Nat) : ℚ) / (den : ℚ) < 1 := by
      rw [div_lt_one hden']; exact h3
    rw [abs_le]
    constructor <;> linarith
  · simp only [hup, if_false]
    refine ⟨?_, le_refl _, Nat.le_succ _⟩
    have h2 : 2 * (num % den) ≤ den := by
      by_contra hc
      exact hup (Or.inl (by omega))
    have h2' : 2 * ((num % den : Nat) : ℚ) ≤ (den : ℚ) := by exact_mod_cast h2
    rw [hq]
    have h4 : ((num % den : Nat) : ℚ) / (den : ℚ) ≤ 1 / 2 := by
      rw [div_le_iff₀ hden']; linarith
    have h5 : (0 : ℚ) ≤ ((num % den : Nat) : ℚ) / (den : ℚ) := by positivity
    rw [abs_le]
    constructor <;> linarith

theorem nat_div_floor (num den : Nat) (hden : 0 < den) :
    ((num / den : Nat) : ℚ) ≤ (num : ℚ) / (den : ℚ) ∧
    (num : ℚ) / (den : ℚ) < ((num / den : Nat) : ℚ) + 1 := by
  have hden' : (0 : ℚ) < (den : ℚ) := by exact_mod_cast hden
  have hdm := Nat.div_add_mod num den
  have hr : num % den < den := Nat.mod_lt _ hden
  have h1 : (num : ℚ) = (den : ℚ) * ((num / den : Nat) : ℚ) + ((num % den : Nat) : ℚ) := by
    exact_mod_cast hdm.symm
  have h2 : ((num % den : Nat) : ℚ) < (den : ℚ) := by exact_mod_cast hr
  have h3 : (0 : ℚ) ≤ ((num % den : Nat) : ℚ) := by positivity
  constructor
  · rw [le_div_iff₀ hden']; nlinarith
  · rw [div_lt_iff₀ hden']; nlinarith

/-- The exponent chosen puts the scaled quotient into `[2 ^ 23, 2 ^ 24)`. -/
theorem f32_exponent_spec (a d : Nat) (ha : a ≠ 0) (hd : d ≠ 0) :
    (2 : ℚ) ^ 23 ≤ (a : ℚ) / (d : ℚ) * (2 : ℚ) ^ (-f32_exponent a d) ∧
    (a : ℚ) / (d : ℚ) * (2 : ℚ) ^ (-f32_exponent a d) < (2 : ℚ) ^ 24 := by
  obtain ⟨la, hla, ha1, ha2⟩ := bit_length_self a ha
  obtain ⟨ld, hld, hd1, hd2⟩ := bit_length_self d hd
  have hdpos : 0 < d := Nat.pos_of_ne_zero hd
  have hd' : (0 : ℚ) < (d : ℚ) := by exact_mod_cast hdpos
  have ha1' : (2 : ℚ) ^ la ≤ (a : ℚ) := by exact_mod_cast ha1
  have ha2' : (a : ℚ) < (2 : ℚ) ^ (la + 1) := by exact_mod_cast ha2
  have hd1' : (2 : ℚ) ^ ld ≤ (d : ℚ) := by exact_mod_cast hd1
  have hd2' : (d : ℚ) < (2 : ℚ) ^ (ld + 1) := by exact_mod_cast hd2
  have hpos : ∀ z : ℤ, (0 : ℚ) < (2 : ℚ) ^ z := fun z => zpow_pos (by norm_num) z
  -- the quotient scaled by the first guess lies in `(2 ^ 23, 2 ^ 25)`
  have hs : (2 : ℚ) ^ (-((la : ℤ) - (ld : ℤ) - 24)) = (2 : ℚ) ^ 24 * (2 : ℚ) ^ ld / (2 : ℚ) ^ la := by
    have : -((la : ℤ) - (ld : ℤ) - 24) = (24 : ℤ) + (ld : ℤ) - (la : ℤ) := by ring
    rw [this, zpow_sub₀ (by norm_num), zpow_add₀ (by norm_num), zpow_natCast, zpow_natCast]
    norm_num
  have hla_pos : (0 : ℚ) < (2 : ℚ) ^ la := by positivity
  have hld_pos : (0 : ℚ) < (2 : ℚ) ^ ld := by positivity
  have hlo : (2 : ℚ) ^ 23 < (a : ℚ) / (d : ℚ) * (2 : ℚ) ^ (-((la : ℤ) - (ld : ℤ) - 24)) := by
    rw [hs, div_mul_div_comm, lt_div_iff₀ (by positivity)]
    have e1 : (2 : ℚ) ^ (ld + 1) = 2 * (2 : ℚ) ^ ld := by ring
    rw [e1] at hd2'
    nlinarith [mul_pos hla_pos hld_pos]
  have hhi : (a : ℚ) / (d : ℚ) * (2 : ℚ) ^ (-((la : ℤ) - (ld : ℤ) - 24)) < (2 : ℚ) ^ 25 := by
    rw [hs, div_mul_div_comm, div_lt_iff₀ (by positivity)]
    have e1 : (2 : ℚ) ^ (la + 1) = 2 * (2 : ℚ) ^ la := by ring
    rw [e1] at ha2'
    nlinarith [mul_pos hla_pos hld_pos]
  have he0 : ((bit_length a a : ℤ) - (bit_length d d : ℤ) - 24) = (la : ℤ) - (ld : ℤ) - 24 := by
    rw [hla, hld]; push_cast; ring
  obtain ⟨hden, hval⟩ := f32_scale_value a d ((la : ℤ) - (ld : ℤ) - 24) hdpos
  obtain ⟨hfl1, hfl2⟩ := nat_div_floor (f32_scale a d ((la : ℤ) - (ld : ℤ) - 24)).1
    (f32_scale a d ((la : ℤ) - (ld : ℤ) - 24)).2 hden
  rw [hval] at hfl1 hfl2
  unfold f32_exponent
  simp only [he0]
  by_cases hq : (f32_scale a d ((la : ℤ) - (ld : ℤ) - 24)).1
      / (f32_scale a d ((la : ℤ) - (ld : ℤ) - 24)).2 < 2 ^ 24
  · simp only [hq, if_true]
    refine ⟨hlo.le, ?_⟩
    have : (((f32_scale a d ((la : ℤ) - (ld : ℤ) - 24)).1
      / (f32_scale a d ((la : ℤ) - (ld : ℤ) - 24)).2 : Nat) : ℚ) + 1 ≤ (2 : ℚ) ^ 24 := by
      exact_mod_cast hq
    linarith
  · simp only [hq, if_false]
    have hge : (2 : ℚ) ^ 24 ≤ (((f32_scale a d ((la : ℤ) - (ld : ℤ) - 24)).1
      / (f32_scale a d ((la : ℤ) - (ld : ℤ) - 24)).2 : Nat) : ℚ) := by
      exact_mod_cast Nat.le_of_not_lt hq
    have hhalf : (2 : ℚ) ^ (-((la : ℤ) - (ld : ℤ) - 24 + 1))
        = (2 : ℚ) ^ (-((la : ℤ) - (ld : ℤ) - 24)) / 2 := by
      have : -((la : ℤ) - (ld : ℤ) - 24 + 1) = -((la : ℤ) - (ld : ℤ) - 24) - 1 := by ring
      rw [this, zpow_sub₀ (by norm_num), zpow_one]
    rw [hhalf]
    constructor
    · have : (2 : ℚ) ^ 24 = 2 * (2 : ℚ) ^ 23 := by norm_num
      linarith
    · have : (2 : ℚ) ^ 25 = 2 * (2 : ℚ) ^ 24 := by norm_num
      linarith

/-- The quotient computed in `float` is a normalised binary32 value within
half a unit in the last place of the exact quotient. -/
theorem f32_div_int_spec (n : Int) (d : Nat) (hn : n ≠ 0) (hd : d ≠ 0) :
    (2 : ℤ) ^ 23 ≤ |(f32_div_int n d).sig| ∧ |(f32_div_int n d).sig| < (2 : ℤ) ^ 24 ∧
    |(f32_div_int n d).toRat - (n : ℚ) / (d : ℚ)| ≤ (2 : ℚ) ^ ((f32_div_int n d).exp - 1) := by
  have ha : n.natAbs ≠ 0 := by omega
  have hdpos : 0 < d := Nat.pos_of_ne_zero hd
  obtain ⟨hx1, hx2⟩ := f32_exponent_spec n.natAbs d ha hd
  obtain ⟨hden, hval⟩ := f32_scale_value n.natAbs d (f32_exponent n.natAbs d) hdpos
  obtain ⟨hr1, hr2, hr3⟩ := f32_round_spec (f32_scale n.natAbs d (f32_exponent n.natAbs d)).1
    (f32_scale n.natAbs d (f32_exponent n.natAbs d)).2 hden
  obtain ⟨hf1, hf2⟩ := nat_div_floor (f32_scale n.natAbs d (f32_exponent n.natAbs d)).1
    (f32_scale n.natAbs d (f32_exponent n.natAbs d)).2 hden
  rw [hval] at hr1 hf1 hf2
  -- abbreviations
  generalize hsig : f32_round ((f32_scale n.natAbs d (f32_exponent n.natAbs d)).1,
    (f32_scale n.natAbs d (f32_exponent n.natAbs d)).2) = sig at hr1 hr2 hr3
  generalize hq : (f32_scale n.natAbs d (f32_exponent n.natAbs d)).1
    / (f32_scale n.natAbs d (f32_exponent n.natAbs d)).2 = q at hr2 hr3 hf1 hf2
  generalize he : f32_exponent n.natAbs d = e at hx1 hx2 hr1 hf1 hf2 hsig
  have hq1 : 2 ^ 23 ≤ q := by
    have : ((2 ^ 23 : Nat) : ℚ) < ((q + 1 : Nat) : ℚ) := by push_cast; linarith
    have := Nat.cast_lt.mp this
    omega
  have hq2 : q < 2 ^ 24 := by
    have : ((q : Nat) : ℚ) < ((2 ^ 24 : Nat) : ℚ) := by push_cast; linarith
    exact Nat.cast_lt.mp this
  have hpos : ∀ z : ℤ, (0 : ℚ) < (2 : ℚ) ^ z := fun z => zpow_pos (by norm_num) z
  have hne : ((d : ℚ)) ≠ 0 := by exact_mod_cast hd
  have hX : (n.natAbs : ℚ) / (d : ℚ) = (n.natAbs : ℚ) / (d : ℚ) * (2 : ℚ) ^ (-e) * (2 : ℚ) ^ e := by
    rw [mul_assoc, ← zpow_add₀ (by norm_num : (2 : ℚ) ≠ 0)]
    simp
  have hsigdef : (f32_div_int n d) =
      ⟨if n < 0 then -((if sig = 2 ^ 24 then 2 ^ 23 else sig : Nat) : Int)
        else ((if sig = 2 ^ 24 then 2 ^ 23 else sig : Nat) : Int),
       if sig = 2 ^ 24 then e + 1 else e⟩ := by
    unfold f32_div_int
    simp only [ha, hd, or_self, if_false, he]
    rw [show f32_round (f32_scale n.natAbs d e) = sig from hsig]
  rw [hsigdef]
  -- the value does not change when the significand is renormalised
  have hval' : (((if sig = 2 ^ 24 then 2 ^ 23 else sig : Nat) : ℚ))
      * (2 : ℚ) ^ (if sig = 2 ^ 24 then e + 1 else e) = (sig : ℚ) * (2 : ℚ) ^ e := by
    by_cases h24 : sig = 2 ^ 24
    · simp only [h24, if_true]
      rw [zpow_add₀ (by norm_num : (2 : ℚ) ≠ 0), zpow_one]
      push_cast
      ring
    · simp only [h24, if_false]
  have hexp : (2 : ℚ) ^ (e - 1) ≤ (2 : ℚ) ^ ((if sig = 2 ^ 24 then e + 1 else e) - 1) := by
    apply zpow_le_zpow_right₀ (by norm_num)
    split <;> omega
  have herr : |(sig : ℚ) * (2 : ℚ) ^ e - (n.natAbs : ℚ) / (d : ℚ)| ≤ (2 : ℚ) ^ (e - 1) := by
    rw [hX, ← sub_mul, abs_mul, abs_of_pos (hpos e), zpow_sub₀ (by norm_num), zpow_one]
    have := hpos e
    calc |(sig : ℚ) - (n.natAbs : ℚ) / (d : ℚ) * (2 : ℚ) ^ (-e)| * (2 : ℚ) ^ e
        ≤ 1 / 2 * (2 : ℚ) ^ e := by
          apply mul_le_mul_of_nonneg_right hr1 this.le
      _ = (2 : ℚ) ^ e / 2 := by ring
  have hsb : 2 ^ 23 ≤ (if sig = 2 ^ 24 then 2 ^ 23 else sig : Nat)
      ∧ (if sig = 2 ^ 24 then 2 ^ 23 else sig : Nat) < 2 ^ 24 := by
    split <;> omega
  generalize (if sig = 2 ^ 24 then 2 ^ 23 else sig : Nat) = sig' at hval' hsb
  generalize (if sig = 2 ^ 24 then e + 1 else e) = e' at hval' hexp
  have hcast : (n.natAbs : ℚ) = |(n : ℚ)| := by
    rw [← Int.cast_abs, Int.abs_eq_natAbs, Int.cast_natCast]
  refine ⟨?_, ?_, ?_⟩
  · show (2 : ℤ) ^ 23 ≤ |if n < 0 then _ else _|
    split
    · rw [abs_neg, abs_of_nonneg (by positivity)]; exact_mod_cast hsb.1
    · rw [abs_of_nonneg (by positivity)]; exact_mod_cast hsb.1
  · show |if n < 0 then _ else _| < (2 : ℤ) ^ 24
    split
    · rw [abs_neg, abs_of_nonneg (by positivity)]; exact_mod_cast hsb.2
    · rw [abs_of_nonneg (by positivity)]; exact_mod_cast hsb.2
  · refine le_trans ?_ hexp
    simp only [F32.toRat]
    by_cases hneg : n < 0
    · simp only [hneg, if_true]
      have hn' : (n : ℚ) = -(n.natAbs : ℚ) := by
        have : (n : ℚ) < 0 := by exact_mod_cast hneg
        rw [hcast, abs_of_neg this, neg_neg]
      have e1 : (((-(sig' : ℤ) : ℤ) : ℚ)) * (2 : ℚ) ^ e' - (n : ℚ) / (d : ℚ)
          = -((sig' : ℚ) * (2 : ℚ) ^ e' - (n.natAbs : ℚ) / (d : ℚ)) := by
        rw [hn']; push_cast; ring
      rw [e1, abs_neg, hval']
      exact herr
    · simp only [hneg, if_false]
      have hn' : (n : ℚ) = (n.natAbs : ℚ) := by
        have : (0 : ℚ) ≤ (n : ℚ) := by exact_mod_cast (not_lt.mp hneg)
        rw [hcast, abs_of_nonneg this]
      rw [hn', Int.cast_natCast, hval']
      exact herr

theorem to_int16_range (x : Int) : -32768 ≤ to_int16 x ∧ to_int16 x ≤ 32767 := by
  unfold to_int16; omega

/-- For an `int16_t` value `h` the `float` quotient `h / 10.0f` is within
`2 ^ (-13)` of the rational `h / 10`. -/
theorem f32_div10_near (h : Int) (h1 : -32768 ≤ h) (h2 : h ≤ 32767) :
    |(f32_div_int h 10).toRat - (h : ℚ) / 10| ≤ 1 / 8192 := by
  by_cases h0 : h = 0
  · subst h0
    have : f32_div_int 0 10 = ⟨0, 0⟩ := by decide
    rw [this]
    simp [F32.toRat]
  obtain ⟨hs1, _, herr⟩ := f32_div_int_spec h 10 h0 (by decide)
  generalize f32_div_int h 10 = x at hs1 herr
  have herr' : |x.toRat - (h : ℚ) / 10| ≤ (2 : ℚ) ^ (x.exp - 1) := by exact_mod_cast herr
  have hP : (0 : ℚ) < (2 : ℚ) ^ x.exp := zpow_pos (by norm_num) _
  have hhalf : (2 : ℚ) ^ (x.exp - 1) = (2 : ℚ) ^ x.exp / 2 := by
    rw [zpow_sub₀ (by norm_num), zpow_one]
  have hS : (8388608 : ℚ) ≤ |(x.sig : ℚ)| := by
    have : ((2 ^ 23 : ℤ) : ℚ) ≤ ((|x.sig| : ℤ) : ℚ) := by exact_mod_cast hs1
    rw [Int.cast_abs] at this
    norm_num at this
    exact this
  have hT : |x.toRat| = |(x.sig : ℚ)| * (2 : ℚ) ^ x.exp := by
    simp only [F32.toRat]
    rw [abs_mul, abs_of_pos hP]
  have hh : |(h : ℚ) / 10| ≤ 32768 / 10 := by
    have a1 : (-32768 : ℚ) ≤ (h : ℚ) := by exact_mod_cast h1
    have a2 : (h : ℚ) ≤ 32767 := by exact_mod_cast h2
    rw [abs_le]
    constructor <;> linarith
  have hTle : |x.toRat| ≤ 32768 / 10 + (2 : ℚ) ^ x.exp / 2 := by
    have := abs_sub_abs_le_abs_sub x.toRat ((h : ℚ) / 10)
    rw [hhalf] at herr'
    linarith
  have hPlt : (2 : ℚ) ^ x.exp < (2 : ℚ) ^ (-11 : ℤ) := by
    have e11 : (2 : ℚ) ^ (-11 : ℤ) = 1 / 2048 := by norm_num
    rw [e11]
    have := mul_le_mul_of_nonneg_right hS hP.le
    rw [hT] at hTle
    nlinarith
  have hexp : x.exp ≤ -12 := by
    have := (zpow_lt_zpow_iff_right₀ (by norm_num : (1 : ℚ) < 2)).mp hPlt
    omega
  have hb : (2 : ℚ) ^ (x.exp - 1) ≤ (2 : ℚ) ^ (-13 : ℤ) :=
    zpow_le_zpow_right₀ (by norm_num) (by omega)
  have e13 : (2 : ℚ) ^ (-13 : ℤ) = 1 / 8192 := by norm_num
  rw [e13] at hb
  exact le_trans herr' hb

/-! ## The claims -/

/-- C1: for every frame that `dht_fetch_data` captured with `ESP_OK` and every
sensor type, `dht_read_data` returns `ESP_OK` exactly when
`data[4] = (data[0] + data[1] + data[2] + data[3]) mod 256`, and
`ESP_ERR_INVALID_CRC` otherwise. -/
theorem read_checksum (fuel : Nat) (sensor_type : dht_sensor_type_t) (pin : Nat → Bool)
    (humidity temperature : Int) (f : FetchResult)
    (hf : dht_fetch_data fuel pin ⟨0, 0, 0, 0, 0⟩ = some f) (hok : f.status = .ESP_OK) :
    ∃ r, dht_read_data fuel sensor_type pin humidity temperature = some r ∧
      (r.status = .ESP_OK ↔
        f.data.get 4 = (f.data.get 0 + f.data.get 1 + f.data.get 2 + f.data.get 3) % 256) ∧
      (f.data.get 4 ≠ (f.data.get 0 + f.data.get 1 + f.data.get 2 + f.data.get 3) % 256 →
        r.status = .ESP_ERR_INVALID_CRC) := by
  unfold dht_read_data
  simp only [hf, hok, ne_eq, not_true_eq_false, if_false, and_255]
  by_cases hc :
      f.data.get 4 = (f.data.get 0 + f.data.get 1 + f.data.get 2 + f.data.get 3) % 256
  · by_cases hs : sensor_type = .DHT_TYPE_DHT11
    · simp [hc, hs]
    · simp [hc, hs]
  · simp [hc]

/-- Witness of C1: a sensor sending the checksum-valid frame `[35,0,21,0,56]`
and one sending the checksum-invalid frame `[35,0,21,0,57]`. -/
theorem read_checksum_witness :
    (dht_fetch_data 44 (sensor_pin ⟨35, 0, 21, 0, 56⟩) ⟨0, 0, 0, 0, 0⟩
        = some ⟨.ESP_OK, ⟨35, 0, 21, 0, 56⟩, 92, none⟩ ∧
      ∃ r, dht_read_data 44 .DHT_TYPE_DHT22 (sensor_pin ⟨35, 0, 21, 0, 56⟩) 0 0 = some r ∧
        (r.status = .ESP_OK ↔ 56 = (35 + 0 + 21 + 0) % 256) ∧
        (56 ≠ (35 + 0 + 21 + 0) % 256 → r.status = .ESP_ERR_INVALID_CRC)) ∧
    (dht_fetch_data 44 (sensor_pin ⟨35, 0, 21, 0, 57⟩) ⟨0, 0, 0, 0, 0⟩
        = some ⟨.ESP_OK, ⟨35, 0, 21, 0, 57⟩, 93, none⟩ ∧
      ∃ r, dht_read_data 44 .DHT_TYPE_DHT11 (sensor_pin ⟨35, 0, 21, 0, 57⟩) 0 0 = some r ∧
        (r.status = .ESP_OK ↔ 57 = (35 + 0 + 21 + 0) % 256) ∧
        (57 ≠ (35 + 0 + 21 + 0) % 256 → r.status = .ESP_ERR_INVALID_CRC)) :=
  ⟨⟨by decide,
      read_checksum 44 .DHT_TYPE_DHT22 (sensor_pin ⟨35, 0, 21, 0, 56⟩) 0 0
        ⟨.ESP_OK, ⟨35, 0, 21, 0, 56⟩, 92, none⟩ (by decide) rfl⟩,
    ⟨by decide,
      read_checksum 44 .DHT_TYPE_DHT11 (sensor_pin ⟨35, 0, 21, 0, 57⟩) 0 0
        ⟨.ESP_OK, ⟨35, 0, 21, 0, 57⟩, 93, none⟩ (by decide) rfl⟩⟩


/-- C2: for `DHT_TYPE_DHT11` and every captured, checksum-valid frame,
`dht_read_data` returns `ESP_OK` with humidity `10 * data[0]` and temperature
`10 * data[2]`; the frame `[35,0,21,0,56]` gives humidity 350 and temperature
210. -/
theorem read_dht11 (fuel : Nat) (hfuel : 44 ≤ fuel) (pin : Nat → Bool)
    (humidity temperature : Int) (f : FetchResult)
    (hf : dht_fetch_data fuel pin ⟨0, 0, 0, 0, 0⟩ = some f) (hok : f.status = .ESP_OK)
    (hcrc : f.data.get 4 = (f.data.get 0 + f.data.get 1 + f.data.get 2 + f.data.get 3) % 256) :
    ∃ r, dht_read_data fuel .DHT_TYPE_DHT11 pin humidity temperature = some r ∧
      r.status = .ESP_OK ∧
      r.humidity = 10 * (f.data.get 0 : Int) ∧
      r.temperature = 10 * (f.data.get 2 : Int) ∧
      (f.data = ⟨35, 0, 21, 0, 56⟩ → r.humidity = 350 ∧ r.temperature = 210) := by
  have h0 := fetch_ok_bytes fuel hfuel pin _ f hf hok 0
  have h2 := fetch_ok_bytes fuel hfuel pin _ f hf hok 2
  have e0 : to_int16 ((f.data.get 0 * 10 : Nat) : Int) = 10 * (f.data.get 0 : Int) := by
    rw [to_int16_of_lt _ (by omega)]; push_cast; ring
  have e2 : to_int16 ((f.data.get 2 * 10 : Nat) : Int) = 10 * (f.data.get 2 : Int) := by
    rw [to_int16_of_lt _ (by omega)]; push_cast; ring
  refine ⟨⟨.ESP_OK, to_int16 ((f.data.get 0 * 10 : Nat) : Int),
    to_int16 ((f.data.get 2 * 10 : Nat) : Int), f.pos, none⟩, ?_, rfl, e0, e2, ?_⟩
  · unfold dht_read_data
    simp [hf, hok, and_255, hcrc]
  · intro hd
    rw [e0, e2, hd]
    exact ⟨rfl, rfl⟩

/-- Witness of C2: a sensor sending `[35,0,21,0,56]`. -/
theorem read_dht11_witness :
    dht_fetch_data 44 (sensor_pin ⟨35, 0, 21, 0, 56⟩) ⟨0, 0, 0, 0, 0⟩
        = some ⟨.ESP_OK, ⟨35, 0, 21, 0, 56⟩, 92, none⟩ ∧
      ∃ r, dht_read_data 44 .DHT_TYPE_DHT11 (sensor_pin ⟨35, 0, 21, 0, 56⟩) (-1) (-1) = some r ∧
        r.status = .ESP_OK ∧ r.humidity = 10 * 35 ∧ r.temperature = 10 * 21 ∧
        ((⟨35, 0, 21, 0, 56⟩ : Frame) = ⟨35, 0, 21, 0, 56⟩ →
          r.humidity = 350 ∧ r.temperature = 210) :=
  ⟨by decide,
    read_dht11 44 (le_refl 44) (sensor_pin ⟨35, 0, 21, 0, 56⟩) (-1) (-1)
      ⟨.ESP_OK, ⟨35, 0, 21, 0, 56⟩, 92, none⟩ (by decide) rfl (by decide)⟩

/-- The result of `dht_read_data` on a captured, checksum-valid frame for a
sensor type other than DHT11. -/
theorem read_dht22_eq (fuel : Nat) (sensor_type : dht_sensor_type_t)
    (hst : sensor_type ≠ .DHT_TYPE_DHT11) (pin : Nat → Bool)
    (humidity temperature : Int) (f : FetchResult)
    (hf : dht_fetch_data fuel pin ⟨0, 0, 0, 0, 0⟩ = some f) (hok : f.status = .ESP_OK)
    (hcrc : f.data.get 4 = (f.data.get 0 + f.data.get 1 + f.data.get 2 + f.data.get 3) % 256) :
    dht_read_data fuel sensor_type pin humidity temperature
      = some ⟨.ESP_OK, to_int16 (((f.data.get 0 <<< 8) ||| f.data.get 1 : Nat) : Int),
          (if int_and (to_int16 (((f.data.get 2 <<< 8) ||| f.data.get 3 : Nat) : Int)) 0x8000 ≠ 0
            then to_int16
              (-(int_and (to_int16 (((f.data.get 2 <<< 8) ||| f.data.get 3 : Nat) : Int)) 0x7FFF))
            else to_int16 (((f.data.get 2 <<< 8) ||| f.data.get 3 : Nat) : Int)),
          f.pos, none⟩ := by
  unfold dht_read_data
  simp [hf, hok, and_255, hcrc, hst]

/-- C3 (amended): for every sensor type other than DHT11 and every captured,
checksum-valid frame, the temperature is sign-magnitude decoded: with
`raw = 256 * data[2] + data[3]` it is `raw` when the top bit of `raw` is clear
and `-(raw & 0x7FFF)` when it is set.  When the top bit is set this differs
from the two's-complement value `raw - 65536` except at `raw = 0xC000`, where
both are `-16384`.  Bytes `0x01,0x04` give 260 and bytes `0x80,0x0A` give -10. -/
theorem read_dht22_temperature (fuel : Nat) (hfuel : 44 ≤ fuel)
    (sensor_type : dht_sensor_type_t) (hst : sensor_type ≠ .DHT_TYPE_DHT11)
    (pin : Nat → Bool) (humidity temperature : Int) (f : FetchResult)
    (hf : dht_fetch_data fuel pin ⟨0, 0, 0, 0, 0⟩ = some f) (hok : f.status = .ESP_OK)
    (hcrc : f.data.get 4 = (f.data.get 0 + f.data.get 1 + f.data.get 2 + f.data.get 3) % 256) :
    ∃ r, dht_read_data fuel sensor_type pin humidity temperature = some r ∧
      r.status = .ESP_OK ∧
      r.temperature =
        (if 256 * f.data.get 2 + f.data.get 3 < 32768
          then ((256 * f.data.get 2 + f.data.get 3 : Nat) : Int)
          else -(((256 * f.data.get 2 + f.data.get 3) &&& 0x7FFF : Nat) : Int)) ∧
      (32768 ≤ 256 * f.data.get 2 + f.data.get 3 →
        (r.temperature = ((256 * f.data.get 2 + f.data.get 3 : Nat) : Int) - 65536
          ↔ 256 * f.data.get 2 + f.data.get 3 = 0xC000)) ∧
      (f.data.get 2 = 0x01 → f.data.get 3 = 0x04 → r.temperature = 260) ∧
      (f.data.get 2 = 0x80 → f.data.get 3 = 0x0A → r.temperature = -10) := by
  have h2 := fetch_ok_bytes fuel hfuel pin _ f hf hok 2
  have h3 := fetch_ok_bytes fuel hfuel pin _ f hf hok 3
  have ht := temperature_decode (256 * f.data.get 2 + f.data.get 3) (by omega)
  have hs := shift_or_byte (f.data.get 2) (f.data.get 3) h3
  refine ⟨_, read_dht22_eq fuel sensor_type hst pin humidity temperature f hf hok hcrc,
    rfl, ?_, ?_, ?_, ?_⟩
  · simp only [hs]
    exact ht
  · intro hneg
    simp only [hs]
    rw [ht, and_0x7FFF]
    have : ¬ 256 * f.data.get 2 + f.data.get 3 < 32768 := by omega
    simp only [this, if_false]
    omega
  · intro e2 e3
    simp only [hs]
    rw [ht, e2, e3]
    decide
  · intro e2 e3
    simp only [hs]
    rw [ht, e2, e3]
    decide

/-- Witness of C3 (amended): sensors sending `[0x02,0x1C,0x01,0x04,0x23]` and
`[0x00,0x00,0x80,0x0A,0x8A]`. -/
theorem read_dht22_temperature_witness :
    (∃ r, dht_read_data 44 .DHT_TYPE_DHT22 (sensor_pin ⟨0x02, 0x1C, 0x01, 0x04, 0x23⟩) 0 0
        = some r ∧ r.status = .ESP_OK ∧ r.temperature = 260) ∧
    (∃ r, dht_read_data 44 .DHT_TYPE_AM2301 (sensor_pin ⟨0x00, 0x00, 0x80, 0x0A, 0x8A⟩) 0 0
        = some r ∧ r.status = .ESP_OK ∧ r.temperature = -10) := by
  constructor
  · obtain ⟨r, h1, h2, _, _, h5, _⟩ :=
      read_dht22_temperature 44 (le_refl 44) .DHT_TYPE_DHT22 (by decide)
        (sensor_pin ⟨0x02, 0x1C, 0x01, 0x04, 0x23⟩) 0 0
        ⟨.ESP_OK, ⟨0x02, 0x1C, 0x01, 0x04, 0x23⟩, 92, none⟩ (by decide) rfl (by decide)
    exact ⟨r, h1, h2, h5 rfl rfl⟩
  · obtain ⟨r, h1, h2, _, _, _, h6⟩ :=
      read_dht22_temperature 44 (le_refl 44) .DHT_TYPE_AM2301 (by decide)
        (sensor_pin ⟨0x00, 0x00, 0x80, 0x0A, 0x8A⟩) 0 0
        ⟨.ESP_OK, ⟨0x00, 0x00, 0x80, 0x0A, 0x8A⟩, 89, none⟩ (by decide) rfl (by decide)
    exact ⟨r, h1, h2, h6 rfl rfl⟩

/-- Counterexample to C3 as stated: on the checksum-valid frame
`[0x00,0x00,0xC0,0x00,0xC0]` the top bit of `raw = 0xC000` is set and the
temperature returned, `-16384`, is the two's-complement value `raw - 65536`. -/
theorem read_dht22_temperature_twos_complement :
    ∃ r, dht_read_data 44 .DHT_TYPE_DHT22 (sensor_pin ⟨0x00, 0x00, 0xC0, 0x00, 0xC0⟩) 0 0
        = some r ∧ r.status = .ESP_OK ∧ 32768 ≤ 256 * 0xC0 + 0x00 ∧
      r.temperature = -((256 * 0xC0 + 0x00) &&& 0x7FFF : Nat) ∧
      r.temperature = ((256 * 0xC0 + 0x00 : Nat) : Int) - 65536 :=
  ⟨⟨.ESP_OK, 0, -16384, 87, none⟩, by decide, rfl, by decide, by decide, by decide⟩

/-- C4 (amended): for every sensor type other than DHT11 and every captured,
checksum-valid frame, the humidity is `256 * data[0] + data[1]` stored into an
`int16_t`: it equals that integer, and is non-negative, exactly when
`data[0] < 128`, and it is that integer minus 65536 otherwise.  Bytes
`0x02,0x1C` give 540. -/
theorem read_dht22_humidity (fuel : Nat) (hfuel : 44 ≤ fuel)
    (sensor_type : dht_sensor_type_t) (hst : sensor_type ≠ .DHT_TYPE_DHT11)
    (pin : Nat → Bool) (humidity temperature : Int) (f : FetchResult)
    (hf : dht_fetch_data fuel pin ⟨0, 0, 0, 0, 0⟩ = some f) (hok : f.status = .ESP_OK)
    (hcrc : f.data.get 4 = (f.data.get 0 + f.data.get 1 + f.data.get 2 + f.data.get 3) % 256) :
    ∃ r, dht_read_data fuel sensor_type pin humidity temperature = some r ∧
      r.status = .ESP_OK ∧
      r.humidity =
        (if f.data.get 0 < 128 then ((256 * f.data.get 0 + f.data.get 1 : Nat) : Int)
          else ((256 * f.data.get 0 + f.data.get 1 : Nat) : Int) - 65536) ∧
      (r.humidity = ((256 * f.data.get 0 + f.data.get 1 : Nat) : Int) ↔ f.data.get 0 < 128) ∧
      (0 ≤ r.humidity ↔ f.data.get 0 < 128) ∧
      (f.data.get 0 = 0x02 → f.data.get 1 = 0x1C → r.humidity = 540) := by
  have h0 := fetch_ok_bytes fuel hfuel pin _ f hf hok 0
  have h1 := fetch_ok_bytes fuel hfuel pin _ f hf hok 1
  have hh : to_int16 (((f.data.get 0 <<< 8) ||| f.data.get 1 : Nat) : Int)
      = (if f.data.get 0 < 128 then ((256 * f.data.get 0 + f.data.get 1 : Nat) : Int)
          else ((256 * f.data.get 0 + f.data.get 1 : Nat) : Int) - 65536) := by
    rw [shift_or_byte _ _ h1]
    unfold to_int16
    split <;> omega
  refine ⟨_, read_dht22_eq fuel sensor_type hst pin humidity temperature f hf hok hcrc,
    rfl, hh, ?_, ?_, ?_⟩
  · show to_int16 _ = _ ↔ _
    rw [hh]
    split <;> omega
  · show 0 ≤ to_int16 _ ↔ _
    rw [hh]
    split <;> omega
  · intro e0 e1
    show to_int16 _ = _
    rw [hh, e0, e1]
    decide

/-- Witness of C4 (amended): a sensor sending `[0x02,0x1C,0x01,0x04,0x23]`. -/
theorem read_dht22_humidity_witness :
    ∃ r, dht_read_data 44 .DHT_TYPE_DHT22 (sensor_pin ⟨0x02, 0x1C, 0x01, 0x04, 0x23⟩) 0 0
        = some r ∧ r.status = .ESP_OK ∧ r.humidity = 540 := by
  obtain ⟨r, h1, h2, _, _, _, h6⟩ :=
    read_dht22_humidity 44 (le_refl 44) .DHT_TYPE_DHT22 (by decide)
      (sensor_pin ⟨0x02, 0x1C, 0x01, 0x04, 0x23⟩) 0 0
      ⟨.ESP_OK, ⟨0x02, 0x1C, 0x01, 0x04, 0x23⟩, 92, none⟩ (by decide) rfl (by decide)
  exact ⟨r, h1, h2, h6 rfl rfl⟩

/-- Counterexample to C4 as stated: on the checksum-valid frame
`[0x80,0x00,0x00,0x00,0x80]` the humidity returned is `-32768`, which is
negative and is not `256 * 0x80 + 0x00 = 32768`. -/
theorem read_dht22_humidity_negative :
    ∃ r, dht_read_data 44 .DHT_TYPE_DHT22 (sensor_pin ⟨0x80, 0x00, 0x00, 0x00, 0x80⟩) 0 0
        = some r ∧ r.status = .ESP_OK ∧ r.humidity = -32768 ∧ r.humidity < 0 ∧
      r.humidity ≠ ((256 * 0x80 + 0x00 : Nat) : Int) :=
  ⟨⟨.ESP_OK, -32768, 0, 85, none⟩, by decide, rfl, rfl, by decide, by decide⟩


theorem await_loop_pos_le (pin : Nat → Bool) (timeout : Nat) (e : Bool) (d : Option Nat) :
    ∀ (fuel i pos : Nat) (r : AwaitResult),
      await_loop pin timeout e d fuel i pos = some r → pos ≤ r.pos := by
  intro fuel
  induction fuel with
  | zero => intro i pos r h; simp [await_loop] at h
  | succ n ih =>
    intro i pos r h
    unfold await_loop at h
    by_cases hlt : i < timeout
    · by_cases hp : (pin pos == e) = true
      · simp only [hlt, hp, if_true, Option.some.injEq] at h
        subst h; exact Nat.le_succ _
      · simp only [hlt, hp, if_true, if_false] at h
        exact Nat.le_of_succ_le (ih _ _ _ h)
    · simp only [hlt, if_false, Option.some.injEq] at h
      subst h; exact le_refl _

/-- An await with the timeout `DHT_TIMEOUT_US` samples the pin at least once. -/
theorem await_samples (fuel : Nat) (pin : Nat → Bool) (pos : Nat) (e : Bool) (d : Option Nat)
    (r : AwaitResult) (h : dht_await_pin_state fuel pin pos DHT_TIMEOUT_US e d = some r) :
    pos < r.pos := by
  unfold dht_await_pin_state at h
  cases fuel with
  | zero => simp [await_loop] at h
  | succ n =>
    unfold await_loop at h
    have hlt : 0 < DHT_TIMEOUT_US := by decide
    by_cases hp : (pin pos == e) = true
    · simp only [hlt, hp, if_true, Option.some.injEq] at h
      subst h; exact Nat.lt_succ_self _
    · simp only [hlt, hp, if_true, if_false] at h
      exact await_loop_pos_le _ _ _ _ _ _ _ _ h

/-- Once all 83 awaits succeeded none of them timed out. -/
theorem await_nth_no_fail (fuel : Nat) (pin : Nat → Bool) (last : AwaitResult)
    (hl : await_nth fuel pin 82 = some last) (hlr : last.ret ≠ 0)
    (k : Nat) (hk : k < 83) (a : AwaitResult) (ha : await_nth fuel pin k = some a) :
    a.ret ≠ 0 := by
  by_cases h : k = 82
  · subst h; rw [hl] at ha; cases ha; exact hlr
  · obtain ⟨b, hb, hb'⟩ := await_nth_earlier fuel pin 82 last hl k (by omega)
    rw [ha] at hb; cases hb; exact hb'

/-- After a timed-out await no further await is performed. -/
theorem await_nth_after_fail (fuel : Nat) (pin : Nat → Bool) (k : Nat) (a : AwaitResult)
    (ha : await_nth fuel pin k = some a) (har : a.ret = 0) (j : Nat) (hj : k < j) :
    await_nth fuel pin j = none := by
  cases hc : await_nth fuel pin j with
  | none => rfl
  | some c =>
    obtain ⟨b, hb, hb'⟩ := await_nth_earlier fuel pin j c hc k hj
    rw [ha] at hb; cases hb; exact absurd har hb'

/-- The whole read: either some await `k < 83` times out, and `dht_read_data`
returns `ESP_ERR_TIMEOUT` where that await stopped, with the message of `k`
and the output cells untouched; or all 83 awaits succeed, the frame is
captured, and `dht_read_data` returns `ESP_OK` or `ESP_ERR_INVALID_CRC`, the
latter with the output cells untouched. -/
theorem read_spec (fuel : Nat) (hfuel : 44 ≤ fuel) (sensor_type : dht_sensor_type_t)
    (pin : Nat → Bool) (humidity temperature : Int) :
    (∃ k a, k < 83 ∧ await_nth fuel pin k = some a ∧ a.ret = 0 ∧
        dht_read_data fuel sensor_type pin humidity temperature
          = some ⟨.ESP_ERR_TIMEOUT, humidity, temperature, a.pos, some (timeout_log k)⟩)
    ∨ (∃ last f r, await_nth fuel pin 82 = some last ∧ last.ret ≠ 0 ∧
        dht_fetch_data fuel pin ⟨0, 0, 0, 0, 0⟩ = some f ∧ f.status = .ESP_OK ∧
        dht_read_data fuel sensor_type pin humidity temperature = some r ∧
        ((r.status = .ESP_OK ∧ r.log = none) ∨
          (r.status = .ESP_ERR_INVALID_CRC ∧ r.humidity = humidity ∧
            r.temperature = temperature ∧ r.log = some .checksum_failed))) := by
  rcases fetch_spec fuel hfuel pin ⟨0, 0, 0, 0, 0⟩ with
    ⟨k, a, data', hk, ha, har, h⟩ | ⟨last, hl, hlr, h⟩
  · refine Or.inl ⟨k, a, hk, ha, har, ?_⟩
    simp [dht_read_data, h]
  · refine Or.inr ⟨last, _, ?_, hl, hlr, h, rfl, ?_⟩
    · exact (dht_read_data fuel sensor_type pin humidity temperature).getD
        ⟨.ESP_OK, 0, 0, 0, none⟩
    · unfold dht_read_data
      simp only [h, ne_eq, not_true_eq_false, if_false]
      split
      · simp
      · split <;> simp


/-- C5: when all awaits of a read succeed, hence for every sequence of 40
successful `(low_duration, high_duration)` observations, and whatever the
prior contents of `data`, `dht_fetch_data` returns `ESP_OK` with five bytes in
which bit `7 - i % 8` of byte `i / 8` is 1 exactly when
`high_duration i > low_duration i` (equal durations give 0). -/
theorem fetch_packs_bits (fuel : Nat) (hfuel : 44 ≤ fuel) (pin : Nat → Bool) (data : Frame)
    (hobs : ∀ k, k < 83 → (await_nth fuel pin k).map (fun a => a.ret) = some 1) :
    ∃ f, dht_fetch_data fuel pin data = some f ∧ f.status = .ESP_OK ∧
      ∀ i, i < 40 →
        ((f.data.get (i / 8)).testBit (7 - i % 8) = true
            ↔ high_duration fuel pin i > low_duration fuel pin i) ∧
        f.data.get (i / 8) < 256 := by
  rcases fetch_spec fuel hfuel pin data with ⟨k, a, data', hk, ha, har, _⟩ | ⟨last, _, _, h⟩
  · have := hobs k hk
    rw [ha] at this
    simp [har] at this
  · refine ⟨_, h, rfl, ?_⟩
    intro i hi
    have hb := store_bits_testBit (low_duration fuel pin) (high_duration fuel pin) data i hi
    refine ⟨?_, hb.2⟩
    show Nat.testBit (Frame.get (store_bits _ _ _ _ _) _) _ = true ↔ _
    rw [hb.1]
    simp

/-- Witness of C5: a sensor sending `[35,0,21,0,56]` into an array that held
other bytes; e.g. bit 2 is a one measured as `(0, 2)` and bit 3 is a zero
measured as `(0, 0)`. -/
theorem fetch_packs_bits_witness :
    (∀ k, k < 83 →
      (await_nth 44 (sensor_pin ⟨35, 0, 21, 0, 56⟩) k).map (fun a => a.ret) = some 1) ∧
    (low_duration 44 (sensor_pin ⟨35, 0, 21, 0, 56⟩) 2 = 0 ∧
      high_duration 44 (sensor_pin ⟨35, 0, 21, 0, 56⟩) 2 = 2 ∧
      low_duration 44 (sensor_pin ⟨35, 0, 21, 0, 56⟩) 3 = 0 ∧
      high_duration 44 (sensor_pin ⟨35, 0, 21, 0, 56⟩) 3 = 0) ∧
    ∃ f, dht_fetch_data 44 (sensor_pin ⟨35, 0, 21, 0, 56⟩) ⟨255, 255, 255, 255, 255⟩ = some f ∧
      f.status = .ESP_OK ∧
      ∀ i, i < 40 →
        ((f.data.get (i / 8)).testBit (7 - i % 8) = true
            ↔ high_duration 44 (sensor_pin ⟨35, 0, 21, 0, 56⟩) i
                > low_duration 44 (sensor_pin ⟨35, 0, 21, 0, 56⟩) i) ∧
        f.data.get (i / 8) < 256 :=
  ⟨by decide, by decide,
    fetch_packs_bits 44 (le_refl 44) (sensor_pin ⟨35, 0, 21, 0, 56⟩) ⟨255, 255, 255, 255, 255⟩
      (by decide)⟩


/-- C6: for every pin behaviour `dht_read_data` returns, and it returns
`ESP_ERR_TIMEOUT` exactly when one of the 83 awaits of the read, taken in the
order ResponseLow, ResponseHigh, DataReady, then high and low for each of the
40 bits, does not reach its level within `DHT_TIMEOUT_US`.  The read stops
there: it has sampled the pin exactly as far as the failed await did, no later
await is performed, and every await that is performed samples the pin at
least once. -/
theorem read_timeout_iff (fuel : Nat) (hfuel : 44 ≤ fuel) (sensor_type : dht_sensor_type_t)
    (pin : Nat → Bool) (humidity temperature : Int) :
    ∃ r, dht_read_data fuel sensor_type pin humidity temperature = some r ∧
      (r.status = .ESP_ERR_TIMEOUT ↔
        ∃ k a, k < 83 ∧ await_nth fuel pin k = some a ∧ a.ret = 0) ∧
      (∀ k a, k < 83 → await_nth fuel pin k = some a → a.ret = 0 →
        r.pos = a.pos ∧ ∀ j, k < j → await_nth fuel pin j = none) ∧
      (∀ pos e d a, dht_await_pin_state fuel pin pos DHT_TIMEOUT_US e d = some a →
        pos < a.pos) := by
  rcases read_spec fuel hfuel sensor_type pin humidity temperature with
    ⟨k, a, hk, ha, har, h⟩ | ⟨last, f, r, hl, hlr, _, _, hr, hs⟩
  · refine ⟨_, h, ⟨fun _ => ⟨k, a, hk, ha, har⟩, fun _ => rfl⟩, ?_, ?_⟩
    · intro k' a' _ ha' har'
      have hkk : k' = k := await_nth_fail_unique fuel pin k' k a' a ha' har' ha har
      subst hkk
      rw [ha] at ha'
      cases ha'
      exact ⟨rfl, await_nth_after_fail fuel pin k' a ha har⟩
    · intro pos e d a' h'
      exact await_samples fuel pin pos e d a' h'
  · refine ⟨r, hr, ⟨?_, ?_⟩, ?_, ?_⟩
    · intro hto
      rcases hs with ⟨h1, _⟩ | ⟨h1, _⟩ <;> rw [h1] at hto <;> cases hto
    · rintro ⟨k, a, hk, ha, har⟩
      exact absurd har (await_nth_no_fail fuel pin last hl hlr k hk a ha)
    · intro k a hk ha har
      exact absurd har (await_nth_no_fail fuel pin last hl hlr k hk a ha)
    · intro pos e d a' h'
      exact await_samples fuel pin pos e d a' h'

/-- Witness of C6: a sensor that stops after 20 samples of a transmission and
holds the line low; the await for high of bit 7 (await 17) times out after 43
samples. -/
theorem read_timeout_iff_witness :
    (44 ≤ 44) ∧
    await_nth 44 (stuck_pin ⟨30, 0, 25, 0, 55⟩ 20 false) 17 = some ⟨0, some 0, 64⟩ ∧
    ∃ r, dht_read_data 44 .DHT_TYPE_DHT11 (stuck_pin ⟨30, 0, 25, 0, 55⟩ 20 false) 0 0 = some r ∧
      (r.status = .ESP_ERR_TIMEOUT ↔
        ∃ k a, k < 83 ∧ await_nth 44 (stuck_pin ⟨30, 0, 25, 0, 55⟩ 20 false) k = some a ∧
          a.ret = 0) ∧
      (∀ k a, k < 83 → await_nth 44 (stuck_pin ⟨30, 0, 25, 0, 55⟩ 20 false) k = some a →
        a.ret = 0 →
        r.pos = a.pos ∧
          ∀ j, k < j → await_nth 44 (stuck_pin ⟨30, 0, 25, 0, 55⟩ 20 false) j = none) ∧
      (∀ pos e d a,
        dht_await_pin_state 44 (stuck_pin ⟨30, 0, 25, 0, 55⟩ 20 false) pos DHT_TIMEOUT_US e d
          = some a → pos < a.pos) :=
  ⟨le_refl 44, by decide,
    read_timeout_iff 44 (le_refl 44) .DHT_TYPE_DHT11 (stuck_pin ⟨30, 0, 25, 0, 55⟩ 20 false) 0 0⟩

/-- C7: on every failure of `dht_read_data` (a timeout or a checksum mismatch)
the cells `*humidity` and `*temperature` keep their contents, and on every
failure of `dht_read_float_data` its two `float` cells keep theirs. -/
theorem read_failure_frame (fuel : Nat) (hfuel : 44 ≤ fuel) (sensor_type : dht_sensor_type_t)
    (pin : Nat → Bool) (humidity temperature : Int) (fhumidity ftemperature : F32) :
    ∃ r rf, dht_read_data fuel sensor_type pin humidity temperature = some r ∧
      dht_read_float_data fuel sensor_type pin fhumidity ftemperature = some rf ∧
      (r.status ≠ .ESP_OK → r.humidity = humidity ∧ r.temperature = temperature) ∧
      (rf.status ≠ .ESP_OK → rf.humidity = fhumidity ∧ rf.temperature = ftemperature) := by
  have hfloat : ∃ rf, dht_read_float_data fuel sensor_type pin fhumidity ftemperature = some rf ∧
      (rf.status ≠ .ESP_OK → rf.humidity = fhumidity ∧ rf.temperature = ftemperature) := by
    unfold dht_read_float_data
    rcases read_spec fuel hfuel sensor_type pin 0 0 with
      ⟨k, a, _, _, _, h⟩ | ⟨last, f, r, _, _, _, _, hr, _⟩
    · simp [h]
    · rw [hr]
      by_cases hs : r.status = .ESP_OK
      · simp [hs]
      · simp [hs]
  obtain ⟨rf, hrf, hrf'⟩ := hfloat
  rcases read_spec fuel hfuel sensor_type pin humidity temperature with
    ⟨k, a, _, _, _, h⟩ | ⟨last, f, r, _, _, _, _, hr, hs⟩
  · exact ⟨_, rf, h, hrf, fun _ => ⟨rfl, rfl⟩, hrf'⟩
  · refine ⟨r, rf, hr, hrf, ?_, hrf'⟩
    intro hne
    rcases hs with ⟨h1, _⟩ | ⟨_, h2, h3, _⟩
    · exact absurd h1 hne
    · exact ⟨h2, h3⟩

/-- Witness of C7: a pin that stays high (timeout in ResponseLow) and a sensor
sending the checksum-invalid frame `[35,0,21,0,57]`; the four cells keep the
values they held. -/
theorem read_failure_frame_witness :
    (dht_read_data 44 .DHT_TYPE_DHT22 (fun _ => true) 123 (-45)
        = some ⟨.ESP_ERR_TIMEOUT, 123, -45, 43, some .start_signal_low⟩ ∧
      ∃ r rf, dht_read_data 44 .DHT_TYPE_DHT22 (fun _ => true) 123 (-45) = some r ∧
        dht_read_float_data 44 .DHT_TYPE_DHT22 (fun _ => true) ⟨12582912, -22⟩ ⟨0, 0⟩ = some rf ∧
        (r.status ≠ .ESP_OK → r.humidity = 123 ∧ r.temperature = -45) ∧
        (rf.status ≠ .ESP_OK → rf.humidity = ⟨12582912, -22⟩ ∧ rf.temperature = ⟨0, 0⟩)) ∧
    (dht_read_data 44 .DHT_TYPE_DHT11 (sensor_pin ⟨35, 0, 21, 0, 57⟩) 123 (-45)
        = some ⟨.ESP_ERR_INVALID_CRC, 123, -45, 93, some .checksum_failed⟩ ∧
      ∃ r rf, dht_read_data 44 .DHT_TYPE_DHT11 (sensor_pin ⟨35, 0, 21, 0, 57⟩) 123 (-45)
          = some r ∧
        dht_read_float_data 44 .DHT_TYPE_DHT11 (sensor_pin ⟨35, 0, 21, 0, 57⟩)
          ⟨12582912, -22⟩ ⟨0, 0⟩ = some rf ∧
        (r.status ≠ .ESP_OK → r.humidity = 123 ∧ r.temperature = -45) ∧
        (rf.status ≠ .ESP_OK → rf.humidity = ⟨12582912, -22⟩ ∧ rf.temperature = ⟨0, 0⟩)) :=
  ⟨⟨by decide,
      read_failure_frame 44 (le_refl 44) .DHT_TYPE_DHT22 (fun _ => true) 123 (-45)
        ⟨12582912, -22⟩ ⟨0, 0⟩⟩,
    ⟨by decide,
      read_failure_frame 44 (le_refl 44) .DHT_TYPE_DHT11 (sensor_pin ⟨35, 0, 21, 0, 57⟩) 123 (-45)
        ⟨12582912, -22⟩ ⟨0, 0⟩⟩⟩


/-- The status of `dht_read_data`, and its outputs on success, do not depend on
what the output cells held. -/
theorem read_prior (fuel : Nat) (sensor_type : dht_sensor_type_t) (pin : Nat → Bool)
    (humidity temperature : Int) :
    dht_read_data fuel sensor_type pin humidity temperature
      = (dht_read_data fuel sensor_type pin 0 0).map
          (fun r => if r.status = .ESP_OK then r
            else ⟨r.status, humidity, temperature, r.pos, r.log⟩) := by
  unfold dht_read_data
  cases hf : dht_fetch_data fuel pin ⟨0, 0, 0, 0, 0⟩ with
  | none => rfl
  | some f =>
    simp only []
    split
    · rename_i h; simp [h]
    · split
      · simp
      · split <;> simp

theorem ite_int16_range (c : Prop) [Decidable c] (x y : Int) :
    -32768 ≤ (if c then to_int16 x else to_int16 y) ∧
      (if c then to_int16 x else to_int16 y) ≤ 32767 := by
  split <;> exact to_int16_range _

/-- On success the outputs of `dht_read_data` are `int16_t` values. -/
theorem read_ok_range (fuel : Nat) (sensor_type : dht_sensor_type_t) (pin : Nat → Bool)
    (humidity temperature : Int) (r : ReadResult)
    (hr : dht_read_data fuel sensor_type pin humidity temperature = some r)
    (hok : r.status = .ESP_OK) :
    (-32768 ≤ r.humidity ∧ r.humidity ≤ 32767) ∧
    (-32768 ≤ r.temperature ∧ r.temperature ≤ 32767) := by
  unfold dht_read_data at hr
  cases hf : dht_fetch_data fuel pin ⟨0, 0, 0, 0, 0⟩ with
  | none => simp [hf] at hr
  | some f =>
    simp only [hf] at hr
    split at hr
    · rename_i hne
      simp only [Option.some.injEq] at hr
      subst hr
      exact absurd hok hne
    · split at hr
      · simp only [Option.some.injEq] at hr
        subst hr
        cases hok
      · split at hr
        · simp only [Option.some.injEq] at hr
          subst hr
          exact ⟨to_int16_range _, to_int16_range _⟩
        · simp only [Option.some.injEq] at hr
          subst hr
          exact ⟨to_int16_range _, ite_int16_range _ _ _⟩

/-- C8: for every sensor type and pin behaviour `dht_read_float_data` returns
the status `dht_read_data` returns, and on success its outputs are the
outputs `h`, `t` of `dht_read_data` divided by ten in `float`: the binary32
values nearest to `h / 10` and `t / 10`, within `2 ^ (-13)` of them. -/
theorem read_float_refines (fuel : Nat) (hfuel : 44 ≤ fuel) (sensor_type : dht_sensor_type_t)
    (pin : Nat → Bool) (humidity temperature : Int) (fhumidity ftemperature : F32) :
    ∃ r rf, dht_read_data fuel sensor_type pin humidity temperature = some r ∧
      dht_read_float_data fuel sensor_type pin fhumidity ftemperature = some rf ∧
      rf.status = r.status ∧
      (r.status = .ESP_OK →
        rf.humidity = f32_div_int r.humidity 10 ∧
        rf.temperature = f32_div_int r.temperature 10 ∧
        |rf.humidity.toRat - (r.humidity : ℚ) / 10| ≤ 1 / 8192 ∧
        |rf.temperature.toRat - (r.temperature : ℚ) / 10| ≤ 1 / 8192) := by
  obtain ⟨r0, hr0⟩ : ∃ r0, dht_read_data fuel sensor_type pin 0 0 = some r0 := by
    rcases read_spec fuel hfuel sensor_type pin 0 0 with
      ⟨k, a, _, _, _, h⟩ | ⟨last, f, r, _, _, _, _, hr, _⟩
    · exact ⟨_, h⟩
    · exact ⟨_, hr⟩
  have hr := read_prior fuel sensor_type pin humidity temperature
  rw [hr0] at hr
  by_cases hs : r0.status = .ESP_OK
  · obtain ⟨⟨a1, a2⟩, ⟨b1, b2⟩⟩ := read_ok_range fuel sensor_type pin 0 0 r0 hr0 hs
    refine ⟨r0, ⟨r0.status, f32_div_int r0.humidity 10, f32_div_int r0.temperature 10,
      r0.pos, r0.log⟩, ?_, ?_, rfl,
      fun _ => ⟨rfl, rfl, f32_div10_near _ a1 a2, f32_div10_near _ b1 b2⟩⟩
    · rw [hr]; simp [hs]
    · unfold dht_read_float_data; rw [hr0]; simp [hs]
  · refine ⟨⟨r0.status, humidity, temperature, r0.pos, r0.log⟩,
      ⟨r0.status, fhumidity, ftemperature, r0.pos, r0.log⟩, ?_, ?_, rfl, ?_⟩
    · rw [hr]; simp [hs]
    · unfold dht_read_float_data; rw [hr0]; simp [hs]
    · intro h; exact absurd h hs

/-- Witness of C8: a DHT22 sending `[0x02,0x1C,0x01,0x04,0x23]`: the tenths
540 and 260, and the `float` values 54.0 and 26.0. -/
theorem read_float_refines_witness :
    (44 ≤ 44) ∧
    dht_read_data 44 .DHT_TYPE_DHT22 (sensor_pin ⟨0x02, 0x1C, 0x01, 0x04, 0x23⟩) 7 7
      = some ⟨.ESP_OK, 540, 260, 92, none⟩ ∧
    dht_read_float_data 44 .DHT_TYPE_DHT22 (sensor_pin ⟨0x02, 0x1C, 0x01, 0x04, 0x23⟩)
        ⟨0, 0⟩ ⟨0, 0⟩
      = some ⟨.ESP_OK, ⟨14155776, -18⟩, ⟨13631488, -19⟩, 92, none⟩ ∧
    ∃ r rf, dht_read_data 44 .DHT_TYPE_DHT22 (sensor_pin ⟨0x02, 0x1C, 0x01, 0x04, 0x23⟩) 7 7
        = some r ∧
      dht_read_float_data 44 .DHT_TYPE_DHT22 (sensor_pin ⟨0x02, 0x1C, 0x01, 0x04, 0x23⟩)
        ⟨0, 0⟩ ⟨0, 0⟩ = some rf ∧
      rf.status = r.status ∧
      (r.status = .ESP_OK →
        rf.humidity = f32_div_int r.humidity 10 ∧
        rf.temperature = f32_div_int r.temperature 10 ∧
        |rf.humidity.toRat - (r.humidity : ℚ) / 10| ≤ 1 / 8192 ∧
        |rf.temperature.toRat - (r.temperature : ℚ) / 10| ≤ 1 / 8192) :=
  ⟨le_refl 44, by decide, by decide,
    read_float_refines 44 (le_refl 44) .DHT_TYPE_DHT22
      (sensor_pin ⟨0x02, 0x1C, 0x01, 0x04, 0x23⟩) 7 7 ⟨0, 0⟩ ⟨0, 0⟩⟩

theorem f32_30 : (F32.mk 15728640 (-19)).toRat = 30 := by
  simp only [F32.toRat]
  norm_num

theorem f32_25 : (F32.mk 13107200 (-19)).toRat = 25 := by
  simp only [F32.toRat]
  norm_num

/-- C9 (amended): for `DHT_TYPE_DHT11`, every capture that yields the bytes
`[30,0,25,0,55]` makes `dht_read_float_data` succeed with humidity 30.0 and
temperature 25.0. -/
theorem read_float_dht11 (fuel : Nat) (pin : Nat → Bool) (fhumidity ftemperature : F32)
    (f : FetchResult) (hf : dht_fetch_data fuel pin ⟨0, 0, 0, 0, 0⟩ = some f)
    (hok : f.status = .ESP_OK) (hd : f.data = ⟨30, 0, 25, 0, 55⟩) :
    ∃ rf, dht_read_float_data fuel .DHT_TYPE_DHT11 pin fhumidity ftemperature = some rf ∧
      rf.status = .ESP_OK ∧ rf.humidity.toRat = 30 ∧ rf.temperature.toRat = 25 := by
  have hr : dht_read_data fuel .DHT_TYPE_DHT11 pin 0 0
      = some ⟨.ESP_OK, 300, 250, f.pos, none⟩ := by
    unfold dht_read_data
    simp [hf, hok, hd, Frame.get, to_int16, and_255]
  have h30 : f32_div_int 300 10 = ⟨15728640, -19⟩ := by decide
  have h25 : f32_div_int 250 10 = ⟨13107200, -19⟩ := by decide
  refine ⟨⟨.ESP_OK, ⟨15728640, -19⟩, ⟨13107200, -19⟩, f.pos, none⟩, ?_, rfl, f32_30, f32_25⟩
  unfold dht_read_float_data
  simp [hr, h30, h25]

/-- Witness of C9 (amended): a DHT11 sending `[30,0,25,0,55]`. -/
theorem read_float_dht11_witness :
    dht_fetch_data 44 (sensor_pin ⟨30, 0, 25, 0, 55⟩) ⟨0, 0, 0, 0, 0⟩
      = some ⟨.ESP_OK, ⟨30, 0, 25, 0, 55⟩, 95, none⟩ ∧
    ∃ rf, dht_read_float_data 44 .DHT_TYPE_DHT11 (sensor_pin ⟨30, 0, 25, 0, 55⟩) ⟨0, 0⟩ ⟨0, 0⟩
        = some rf ∧
      rf.status = .ESP_OK ∧ rf.humidity.toRat = 30 ∧ rf.temperature.toRat = 25 :=
  ⟨by decide,
    read_float_dht11 44 (sensor_pin ⟨30, 0, 25, 0, 55⟩) ⟨0, 0⟩ ⟨0, 0⟩
      ⟨.ESP_OK, ⟨30, 0, 25, 0, 55⟩, 95, none⟩ (by decide) rfl rfl⟩

/-- Counterexample to C9 as stated: a DHT11 capture that yields
`[30,0,25,0,55]` makes `dht_read_float_data` succeed with humidity 30.0 and
temperature 25.0, not 3.0 and 2.5. -/
theorem read_float_dht11_not_tenth :
    dht_fetch_data 44 (sensor_pin ⟨30, 0, 25, 0, 55⟩) ⟨0, 0, 0, 0, 0⟩
      = some ⟨.ESP_OK, ⟨30, 0, 25, 0, 55⟩, 95, none⟩ ∧
    ∃ rf, dht_read_float_data 44 .DHT_TYPE_DHT11 (sensor_pin ⟨30, 0, 25, 0, 55⟩) ⟨0, 0⟩ ⟨0, 0⟩
        = some rf ∧
      rf.status = .ESP_OK ∧ rf.humidity.toRat ≠ 3 ∧ rf.temperature.toRat ≠ 5 / 2 := by
  refine ⟨by decide, ⟨.ESP_OK, ⟨15728640, -19⟩, ⟨13107200, -19⟩, 95, none⟩, by decide, rfl,
    ?_, ?_⟩
  · rw [f32_30]; norm_num
  · rw [f32_25]; norm_num


/-- Different awaits have different timeout messages. -/
theorem timeout_log_injective (j k : Nat) (h : timeout_log j = timeout_log k) : j = k := by
  unfold timeout_log at h
  split_ifs at h <;> first
    | omega
    | (simp only [dht_log.data_bit_high.injEq, dht_log.data_bit_low.injEq] at h; omega)

/-- C10 (amended): a timeout of `dht_read_data` returns the one code
`ESP_ERR_TIMEOUT` whatever the phase; the phase is identified by the
`ESP_LOGE` message alone, which differs between any two of the 83 awaits and,
for the two awaits of bit `i`, carries the index `i`. -/
theorem read_timeout_log (fuel : Nat) (hfuel : 44 ≤ fuel) (sensor_type : dht_sensor_type_t)
    (pin : Nat → Bool) (humidity temperature : Int) (k : Nat) (a : AwaitResult)
    (hk : k < 83) (ha : await_nth fuel pin k = some a) (har : a.ret = 0) :
    dht_read_data fuel sensor_type pin humidity temperature
        = some ⟨.ESP_ERR_TIMEOUT, humidity, temperature, a.pos, some (timeout_log k)⟩ ∧
      (∀ j, timeout_log j = timeout_log k → j = k) ∧
      (k = 0 → timeout_log k = .start_signal_low) ∧
      (k = 1 → timeout_log k = .start_signal_high) ∧
      (k = 2 → timeout_log k = .data_start) ∧
      (∀ i, k = 3 + 2 * i → timeout_log k = .data_bit_high i) ∧
      (∀ i, k = 4 + 2 * i → timeout_log k = .data_bit_low i) := by
  refine ⟨?_, fun j h => timeout_log_injective j k h, ?_, ?_, ?_, ?_, ?_⟩
  · rcases read_spec fuel hfuel sensor_type pin humidity temperature with
      ⟨k', a', _, ha', har', h⟩ | ⟨last, f, r, hl, hlr, _, _, _, _⟩
    · have hkk : k' = k := await_nth_fail_unique fuel pin k' k a' a ha' har' ha har
      subst hkk
      rw [ha] at ha'
      cases ha'
      exact h
    · exact absurd har (await_nth_no_fail fuel pin last hl hlr k hk a ha)
  · intro h; subst h; rfl
  · intro h; subst h; rfl
  · intro h; subst h; rfl
  · intro i h; subst h; exact timeout_log_high i
  · intro i h; subst h; exact timeout_log_low i

/-- Witness of C10 (amended): a sensor that stops after 20 samples and holds
the line low, so that the await for high of bit 7 times out. -/
theorem read_timeout_log_witness :
    await_nth 44 (stuck_pin ⟨30, 0, 25, 0, 55⟩ 20 false) 17 = some ⟨0, some 0, 64⟩ ∧
    dht_read_data 44 .DHT_TYPE_DHT11 (stuck_pin ⟨30, 0, 25, 0, 55⟩ 20 false) 5 6
      = some ⟨.ESP_ERR_TIMEOUT, 5, 6, 64, some (.data_bit_high 7)⟩ :=
  ⟨by decide,
    (read_timeout_log 44 (le_refl 44) .DHT_TYPE_DHT11 (stuck_pin ⟨30, 0, 25, 0, 55⟩ 20 false)
      5 6 17 ⟨0, some 0, 64⟩ (by decide) (by decide) rfl).1⟩

/-- Counterexample to C10 as stated: timeouts in ResponseLow (line held high),
ResponseHigh (line held low), DataReady, the low await of bit 6 and the high
await of bit 7 all return the same `ESP_ERR_TIMEOUT` and leave the same output
cells; the results differ only in the message logged and the samples taken. -/
theorem read_timeout_same_code :
    dht_read_data 44 .DHT_TYPE_DHT11 (fun _ => true) 5 6
      = some ⟨.ESP_ERR_TIMEOUT, 5, 6, 43, some .start_signal_low⟩ ∧
    dht_read_data 44 .DHT_TYPE_DHT11 (fun _ => false) 5 6
      = some ⟨.ESP_ERR_TIMEOUT, 5, 6, 44, some .start_signal_high⟩ ∧
    dht_read_data 44 .DHT_TYPE_DHT11 (stuck_pin ⟨30, 0, 25, 0, 55⟩ 2 true) 5 6
      = some ⟨.ESP_ERR_TIMEOUT, 5, 6, 45, some .data_start⟩ ∧
    dht_read_data 44 .DHT_TYPE_DHT11 (stuck_pin ⟨30, 0, 25, 0, 55⟩ 20 true) 5 6
      = some ⟨.ESP_ERR_TIMEOUT, 5, 6, 62, some (.data_bit_low 6)⟩ ∧
    dht_read_data 44 .DHT_TYPE_DHT11 (stuck_pin ⟨30, 0, 25, 0, 55⟩ 20 false) 5 6
      = some ⟨.ESP_ERR_TIMEOUT, 5, 6, 64, some (.data_bit_high 7)⟩ :=
  ⟨by decide, by decide, by decide, by decide, by decide⟩


/-! ## The contract of `dht_await_pin_state` -/

/-- For every `uint32_t` timeout an await returns 1 at the first sample that
has the expected level and is taken before the timeout, with the elapsed count
`2 * k` in the duration cell: the counter does not wrap before it. -/
theorem await_loop_first (pin : Nat → Bool) (timeout : Nat) (e : Bool) (d : Option Nat)
    (ht : timeout ≤ 4294967295) :
    ∀ (k fuel i pos : Nat), k < fuel → i + 2 * k < timeout →
      (∀ j, j < k → pin (pos + j) ≠ e) → pin (pos + k) = e →
      await_loop pin timeout e d fuel i pos
        = some ⟨1, d.map (fun _ => i + 2 * k), pos + k + 1⟩ := by
  intro k
  induction k with
  | zero =>
    intro fuel i pos hf hlt _ hk
    obtain ⟨m, rfl⟩ : ∃ m, fuel = m + 1 := ⟨fuel - 1, by omega⟩
    have hlt' : i < timeout := by omega
    simp only [Nat.add_zero] at hk
    simp [await_loop, hlt', hk]
  | succ k ih =>
    intro fuel i pos hf hlt hne hk
    obtain ⟨m, rfl⟩ : ∃ m, fuel = m + 1 := ⟨fuel - 1, by omega⟩
    have hlt' : i < timeout := by omega
    have h0 : ¬ (pin pos == e) = true := by
      have := hne 0 (by omega)
      simpa using this
    have hmod : (i + DHT_TIMER_INTERVAL) % 4294967296 = i + 2 := by
      simp only [DHT_TIMER_INTERVAL]; omega
    unfold await_loop
    rw [if_pos hlt', if_neg h0, hmod,
      ih m (i + 2) (pos + 1) (by omega) (by omega)
        (fun j hj => by
          have := hne (j + 1) (by omega)
          rwa [show pos + 1 + j = pos + (j + 1) by omega])
        (by rwa [show pos + 1 + k = pos + (k + 1) by omega])]
    have e1 : i + 2 + 2 * k = i + 2 * (k + 1) := by omega
    have e2 : pos + 1 + k + 1 = pos + (k + 1) + 1 := by omega
    rw [e1, e2]

/-- While the counter cannot wrap, an await on which no sample taken before
the timeout has the expected level returns 0 after `⌈(timeout - i) / 2⌉`
samples and leaves the duration cell as it was. -/
theorem await_loop_timeout (pin : Nat → Bool) (timeout : Nat) (e : Bool) (d : Option Nat)
    (ht : timeout + 2 ≤ 4294967296) :
    ∀ (fuel i pos : Nat), timeout ≤ i + 2 * fuel →
      (∀ j, i + 2 * j < timeout → pin (pos + j) ≠ e) →
      await_loop pin timeout e d (fuel + 1) i pos
        = some ⟨0, d, pos + (timeout - i + 1) / 2⟩ := by
  intro fuel
  induction fuel with
  | zero =>
    intro i pos h _
    have hlt : ¬ i < timeout := by omega
    have e0 : (timeout - i + 1) / 2 = 0 := by omega
    simp [await_loop, hlt, e0]
  | succ n ih =>
    intro i pos h hne
    unfold await_loop
    by_cases hlt : i < timeout
    · have h0 : ¬ (pin pos == e) = true := by
        have := hne 0 (by omega)
        simpa using this
      have hmod : (i + DHT_TIMER_INTERVAL) % 4294967296 = i + 2 := by
        simp only [DHT_TIMER_INTERVAL]; omega
      rw [if_pos hlt, if_neg h0, hmod,
        ih (i + 2) (pos + 1) (by omega)
          (fun j hj => by
            have := hne (j + 1) (by omega)
            rwa [show pos + 1 + j = pos + (j + 1) by omega])]
      have e1 : pos + 1 + (timeout - (i + 2) + 1) / 2 = pos + (timeout - i + 1) / 2 := by omega
      rw [e1]
    · have e0 : (timeout - i + 1) / 2 = 0 := by omega
      simp [hlt, e0]

/-- The success half of the contract of `dht_await_pin_state`, for every
`uint32_t` timeout, `UINT32_MAX` included: if sample `k` is the first with the
expected level and `2 * k < timeout`, the call returns 1 after `k + 1` samples,
at most `⌈timeout / 2⌉`, and the duration cell (when there is one) holds
`2 * k`. -/
theorem await_first_match (fuel : Nat) (pin : Nat → Bool) (pos timeout : Nat) (e : Bool)
    (d : Option Nat) (ht : timeout ≤ 4294967295) (k : Nat) (hk : 2 * k < timeout)
    (hne : ∀ j, j < k → pin (pos + j) ≠ e) (hm : pin (pos + k) = e) (hfuel : k < fuel) :
    dht_await_pin_state fuel pin pos timeout e d
        = some ⟨1, d.map (fun _ => 2 * k), pos + k + 1⟩ ∧
      k + 1 ≤ (timeout + 1) / 2 := by
  have h := await_loop_first pin timeout e d ht k fuel 0 pos hfuel (by omega) hne hm
  simp only [Nat.zero_add] at h
  exact ⟨h, by omega⟩

/-- The whole contract of `dht_await_pin_state` for every timeout below
`UINT32_MAX`, so for `DHT_TIMEOUT_US`, the timeout of every call in `dht.c`:
the call returns after at most `⌈timeout / 2⌉` samples.  If sample `k` is the
first with the expected level and `2 * k < timeout`, it returns 1 and the
duration cell (when there is one) holds `2 * k`; if no sample with
`2 * k < timeout` has the expected level, it returns 0 and the duration cell
is as it was. -/
theorem await_contract (fuel : Nat) (pin : Nat → Bool) (pos timeout : Nat) (e : Bool)
    (d : Option Nat) (ht : timeout ≤ 4294967294) (hfuel : (timeout + 1) / 2 < fuel) :
    ∃ r, dht_await_pin_state fuel pin pos timeout e d = some r ∧
      r.pos ≤ pos + (timeout + 1) / 2 ∧
      (∀ k, 2 * k < timeout → (∀ j, j < k → pin (pos + j) ≠ e) → pin (pos + k) = e →
        r = ⟨1, d.map (fun _ => 2 * k), pos + k + 1⟩) ∧
      ((∀ k, 2 * k < timeout → pin (pos + k) ≠ e) → r = ⟨0, d, pos + (timeout + 1) / 2⟩) := by
  by_cases hex : ∃ k, 2 * k < timeout ∧ pin (pos + k) = e
  · -- the first sample with the expected level
    have hk := Nat.find_spec hex
    have hmin : ∀ j, j < Nat.find hex → pin (pos + j) ≠ e := by
      intro j hj hje
      exact Nat.find_min hex hj ⟨by omega, hje⟩
    have h := await_loop_first pin timeout e d (by omega) (Nat.find hex) fuel 0 pos (by omega)
      (by omega) hmin hk.2
    simp only [Nat.zero_add] at h
    refine ⟨_, h, by show pos + Nat.find hex + 1 ≤ _; omega, ?_, ?_⟩
    · intro k hk2 hne hm
      have hkk : k = Nat.find hex := by
        rcases Nat.lt_trichotomy k (Nat.find hex) with hlt | heq | hgt
        · exact absurd hm (hmin k hlt)
        · exact heq
        · exact absurd hk.2 (hne _ hgt)
      rw [hkk]
    · intro hne
      exact absurd hk.2 (hne _ hk.1)
  · have hne : ∀ k, 2 * k < timeout → pin (pos + k) ≠ e := by
      intro k hk hke
      exact hex ⟨k, hk, hke⟩
    obtain ⟨m, rfl⟩ : ∃ m, fuel = m + 1 := ⟨fuel - 1, by omega⟩
    have h := await_loop_timeout pin timeout e d (by omega) m 0 pos (by omega)
      (fun j hj => hne j (by omega))
    simp only [Nat.sub_zero] at h
    refine ⟨_, h, le_refl _, ?_, fun _ => rfl⟩
    intro k hk2 _ hm
    exact absurd hm (hne k hk2)

/-- The contract at the timeout `DHT_TIMEOUT_US`, with a duration cell holding
7: on a pin that goes high at its sixth sample an await for high returns 1
after 6 samples with 10 in the cell, and on a pin that stays low it returns 0
after 43 samples with 7 still in the cell. -/
theorem await_contract_example :
    dht_await_pin_state 44 (fun n => decide (5 ≤ n)) 0 DHT_TIMEOUT_US true (some 7)
      = some ⟨1, some 10, 6⟩ ∧
    dht_await_pin_state 44 (fun _ => false) 0 DHT_TIMEOUT_US true (some 7)
      = some ⟨0, some 7, 43⟩ ∧
    ∃ r, dht_await_pin_state 44 (fun n => decide (5 ≤ n)) 0 DHT_TIMEOUT_US true (some 7) = some r ∧
      r.pos ≤ 0 + (DHT_TIMEOUT_US + 1) / 2 ∧
      (∀ k, 2 * k < DHT_TIMEOUT_US →
        (∀ j, j < k → (fun n => decide (5 ≤ n)) (0 + j) ≠ true) →
        (fun n => decide (5 ≤ n)) (0 + k) = true →
        r = ⟨1, (some 7).map (fun _ => 2 * k), 0 + k + 1⟩) ∧
      ((∀ k, 2 * k < DHT_TIMEOUT_US → (fun n => decide (5 ≤ n)) (0 + k) ≠ true) →
        r = ⟨0, some 7, 0 + (DHT_TIMEOUT_US + 1) / 2⟩) :=
  ⟨by decide, by decide,
    await_contract 44 (fun n => decide (5 ≤ n)) 0 DHT_TIMEOUT_US true (some 7) (by decide)
      (by decide)⟩

/-- The bound of a wait loop is never used up: from one unit on, as soon as
`fuel + timeout` reaches 101 a further unit changes nothing.  `dht11_wait`
starts with 101 units and the counter 0. -/
theorem dht11_wait_loop_fuel (pin : Nat → Bool) (level : Bool) :
    ∀ (fuel timeout pos : Nat), 1 ≤ fuel → 101 ≤ fuel + timeout →
      dht11_wait_loop pin level (fuel + 1) timeout pos
        = dht11_wait_loop pin level fuel timeout pos := by
  intro fuel
  induction fuel with
  | zero => intro timeout pos h; omega
  | succ n ih =>
    intro timeout pos _ hsum
    have e1 : dht11_wait_loop pin level (n + 1 + 1) timeout pos
        = if (pin pos == level && decide (timeout < 100)) = true then
            dht11_wait_loop pin level (n + 1) (timeout + 1) (pos + 1)
          else (timeout, pos + 1) := rfl
    have e2 : dht11_wait_loop pin level (n + 1) timeout pos
        = if (pin pos == level && decide (timeout < 100)) = true then
            dht11_wait_loop pin level n (timeout + 1) (pos + 1)
          else (timeout, pos + 1) := rfl
    rw [e1, e2]
    by_cases hc : (pin pos == level && decide (timeout < 100)) = true
    · have hlt : timeout < 100 := by
        simp only [Bool.and_eq_true, decide_eq_true_eq] at hc
        exact hc.2
      rw [if_pos hc, if_pos hc]
      exact ih (timeout + 1) (pos + 1) (by omega) (by omega)
    · rw [if_neg hc, if_neg hc]

theorem dht11_wait_nth_succ (pin : Nat → Bool) (k : Nat) (w : Nat × Nat)
    (h : dht11_wait_nth pin k = some w) (hw : w.1 < 100) :
    dht11_wait_nth pin (k + 1) = some (dht11_wait pin w.2 (dht11_wait_level (k + 1))) := by
  have : ¬ w.1 ≥ 100 := by omega
  simp [dht11_wait_nth, h, this]

theorem dht11_wait_level_low (i : Nat) : dht11_wait_level (2 + 2 * i + 1) = false := by
  simp [dht11_wait_level]; omega

theorem dht11_wait_level_high (i : Nat) : dht11_wait_level (3 + 2 * i + 1) = true := by
  simp [dht11_wait_level]; omega

/-- The bit loop of `read_dht11`, entered after wait `2 + 2 * i` succeeded at
`pos`: either some later wait `k` times out and the loop gives up where that
wait stopped, or all waits succeed and the bits are stored. -/
theorem dht11_bits_spec (pin : Nat → Bool) :
    ∀ (n i pos : Nat) (data : Frame) (prev : Nat × Nat),
      dht11_wait_nth pin (2 + 2 * i) = some prev → prev.1 < 100 → prev.2 = pos →
      (∃ k w data', 3 + 2 * i ≤ k ∧ k < 3 + 2 * (i + n) ∧
          dht11_wait_nth pin k = some w ∧ 100 ≤ w.1 ∧
          dht11_bits pin n i pos data = (false, data', w.2))
      ∨ (∃ last, dht11_wait_nth pin (2 + 2 * (i + n)) = some last ∧ last.1 < 100 ∧
          dht11_bits pin n i pos data
            = (true, dht11_store_bits (dht11_high_count pin) n i data, last.2)) := by
  intro n
  induction n with
  | zero =>
    intro i pos data prev hprev hret hpos
    exact Or.inr ⟨prev, by simpa using hprev, hret, by simp [dht11_bits, dht11_store_bits, hpos]⟩
  | succ n ih =>
    intro i pos data prev hprev hret hpos
    have hlo := dht11_wait_nth_succ pin _ prev hprev hret
    rw [dht11_wait_level_low, hpos, show 2 + 2 * i + 1 = 3 + 2 * i by omega] at hlo
    by_cases hlr : 100 ≤ (dht11_wait pin pos false).1
    · refine Or.inl ⟨3 + 2 * i, _, data, le_refl _, by omega, hlo, hlr, ?_⟩
      simp [dht11_bits, hlr]
    · have hlr' : (dht11_wait pin pos false).1 < 100 := by omega
      have hhi := dht11_wait_nth_succ pin _ _ hlo hlr'
      rw [dht11_wait_level_high, show 3 + 2 * i + 1 = 4 + 2 * i by omega] at hhi
      by_cases hhr : 100 ≤ (dht11_wait pin (dht11_wait pin pos false).2 true).1
      · refine Or.inl ⟨4 + 2 * i, _, data, by omega, by omega, hhi, hhr, ?_⟩
        simp [dht11_bits, hlr, hhr]
      · have hhr' : (dht11_wait pin (dht11_wait pin pos false).2 true).1 < 100 := by omega
        have hc : dht11_high_count pin i
            = (dht11_wait pin (dht11_wait pin pos false).2 true).1 := by
          simp [dht11_high_count, hhi]
        rcases ih (i + 1) (dht11_wait pin (dht11_wait pin pos false).2 true).2
            (dht11_store_bit data i (dht11_wait pin (dht11_wait pin pos false).2 true).1) _
            (by rw [show 2 + 2 * (i + 1) = 4 + 2 * i by omega]; exact hhi) hhr' rfl with
          ⟨k, w, data', h1, h2, h3, h4, h5⟩ | ⟨last, h1, h2, h3⟩
        · refine Or.inl ⟨k, w, data', by omega, by omega, h3, h4, ?_⟩
          simp [dht11_bits, hlr, hhr, h5]
        · refine Or.inr ⟨last, ?_, h2, ?_⟩
          · rw [show 2 + 2 * (i + (n + 1)) = 2 + 2 * (i + 1 + n) by omega]; exact h1
          · simp [dht11_bits, hlr, hhr, h3, dht11_store_bits, hc]

/-- The whole `read_dht11`: either some wait `k < 83` times out, and it returns
`false` where that wait stopped with the output cells untouched; or all 83
waits succeed and the 40 bits are stored and parsed. -/
theorem main_read_spec (pin : Nat → Bool) (temperature humidity : F32) :
    (∃ k w data', k < 83 ∧ dht11_wait_nth pin k = some w ∧ 100 ≤ w.1 ∧
        main_read_dht11 pin temperature humidity
          = ⟨false, temperature, humidity, data', w.2⟩)
    ∨ (∃ last, dht11_wait_nth pin 82 = some last ∧ last.1 < 100 ∧
        main_read_dht11 pin temperature humidity
          = dht11_parse (dht11_store_bits (dht11_high_count pin) 40 0 ⟨0, 0, 0, 0, 0⟩)
              temperature humidity last.2) := by
  have h0 : dht11_wait_nth pin 0 = some (dht11_wait pin 0 true) := by
    simp [dht11_wait_nth, dht11_wait_level]
  by_cases hr0 : 100 ≤ (dht11_wait pin 0 true).1
  · refine Or.inl ⟨0, _, ⟨0, 0, 0, 0, 0⟩, by omega, h0, hr0, ?_⟩
    simp [main_read_dht11, hr0]
  have hr0' : (dht11_wait pin 0 true).1 < 100 := by omega
  have h1 := dht11_wait_nth_succ pin 0 _ h0 hr0'
  rw [show dht11_wait_level (0 + 1) = false by decide] at h1
  by_cases hr1 : 100 ≤ (dht11_wait pin (dht11_wait pin 0 true).2 false).1
  · refine Or.inl ⟨1, _, ⟨0, 0, 0, 0, 0⟩, by omega, h1, hr1, ?_⟩
    simp [main_read_dht11, hr0, hr1]
  have hr1' : (dht11_wait pin (dht11_wait pin 0 true).2 false).1 < 100 := by omega
  have h2 := dht11_wait_nth_succ pin 1 _ h1 hr1'
  rw [show dht11_wait_level (1 + 1) = true by decide] at h2
  by_cases hr2 : 100 ≤ (dht11_wait pin (dht11_wait pin (dht11_wait pin 0 true).2 false).2 true).1
  · refine Or.inl ⟨2, _, ⟨0, 0, 0, 0, 0⟩, by omega, h2, hr2, ?_⟩
    simp [main_read_dht11, hr0, hr1, hr2]
  have hr2' : (dht11_wait pin (dht11_wait pin (dht11_wait pin 0 true).2 false).2 true).1 < 100 := by
    omega
  rcases dht11_bits_spec pin 40 0 _ ⟨0, 0, 0, 0, 0⟩ _ h2 hr2' rfl with
    ⟨k, w, data', _, hk, hw, hwr, hb⟩ | ⟨last, hl, hlr, hb⟩
  · refine Or.inl ⟨k, w, data', by omega, hw, hwr, ?_⟩
    simp [main_read_dht11, hr0, hr1, hr2, hb]
  · refine Or.inr ⟨last, hl, hlr, ?_⟩
    simp [main_read_dht11, hr0, hr1, hr2, hb, dht11_parse]

/-! ## The shift-left packing of `read_dht11` -/

theorem dht11_store_bit_eq (data : Frame) (b m c : Nat) (hb : b < 5) (hm : m < 8) :
    dht11_store_bit data (8 * b + m) c
      = data.set b (shl_bit (data.get b) (decide (40 < c))) := by
  have hdiv : (8 * b + m) / 8 = b := by omega
  unfold dht11_store_bit shl_bit
  simp only [hdiv, gt_iff_lt, decide_eq_true_eq]
  by_cases hc : 40 < c
  · simp only [hc, if_true, frame_get_set _ _ _ hb, frame_set_set _ _ _ _ hb]
  · simp only [hc, if_false]

/-- Eight shift-and-or stores from a cleared byte give the byte that the
MSB-first stores give. -/
theorem shl_pack8 : ∀ c0 c1 c2 c3 c4 c5 c6 c7 : Bool,
    shl_bit (shl_bit (shl_bit (shl_bit (shl_bit (shl_bit (shl_bit (shl_bit 0 c0) c1) c2) c3)
      c4) c5) c6) c7 = pack8 c0 c1 c2 c3 c4 c5 c6 c7 := by
  decide

/-- The eight iterations of `read_dht11` that fill the cleared byte `b`. -/
theorem dht11_store_bits_byte (cnt : Nat → Nat) (data : Frame) (b : Nat) (hb : b < 5)
    (h0 : data.get b = 0) :
    dht11_store_bits cnt 8 (8 * b) data = data.set b (packed_byte (fun _ => 40) cnt b) := by
  simp only [dht11_store_bits, Nat.add_assoc, Nat.reduceAdd]
  have e0 := dht11_store_bit_eq data b 0 (cnt (8 * b)) hb (by omega)
  rw [Nat.add_zero] at e0
  rw [e0,
    dht11_store_bit_eq _ b 1 _ hb (by omega), dht11_store_bit_eq _ b 2 _ hb (by omega),
    dht11_store_bit_eq _ b 3 _ hb (by omega), dht11_store_bit_eq _ b 4 _ hb (by omega),
    dht11_store_bit_eq _ b 5 _ hb (by omega), dht11_store_bit_eq _ b 6 _ hb (by omega),
    dht11_store_bit_eq _ b 7 _ hb (by omega)]
  simp only [frame_set_set _ _ _ _ hb, frame_get_set _ _ _ hb, h0, shl_pack8, packed_byte]

theorem dht11_store_bits_add (cnt : Nat → Nat) :
    ∀ (n m i : Nat) (data : Frame),
      dht11_store_bits cnt (n + m) i data
        = dht11_store_bits cnt m (i + n) (dht11_store_bits cnt n i data) := by
  intro n
  induction n with
  | zero => intro m i data; simp [dht11_store_bits]
  | succ n ih =>
    intro m i data
    rw [show n + 1 + m = (n + m) + 1 by omega]
    simp only [dht11_store_bits]
    rw [ih, show i + 1 + n = i + (n + 1) by omega]

/-- From a cleared array the shift-left packing of `read_dht11` on the counts
`cnt` leaves the frame that the MSB-first packing of `dht_fetch_data` leaves
for durations with the same decisions, here `(40, cnt i)`. -/
theorem dht11_store_bits_frame (cnt : Nat → Nat) :
    dht11_store_bits cnt 40 0 ⟨0, 0, 0, 0, 0⟩
      = ⟨packed_byte (fun _ => 40) cnt 0, packed_byte (fun _ => 40) cnt 1,
          packed_byte (fun _ => 40) cnt 2, packed_byte (fun _ => 40) cnt 3,
          packed_byte (fun _ => 40) cnt 4⟩ := by
  rw [show (40 : Nat) = 8 + (8 + (8 + (8 + 8))) from rfl, dht11_store_bits_add,
    dht11_store_bits_add, dht11_store_bits_add, dht11_store_bits_add]
  have h0 := dht11_store_bits_byte cnt ⟨0, 0, 0, 0, 0⟩ 0 (by omega) rfl
  rw [show 8 * 0 = 0 from rfl] at h0
  rw [h0]
  have h1 := dht11_store_bits_byte cnt
    ((⟨0, 0, 0, 0, 0⟩ : Frame).set 0 (packed_byte (fun _ => 40) cnt 0)) 1 (by omega) rfl
  rw [show 8 * 1 = 0 + 8 from rfl] at h1
  rw [h1]
  have h2 := dht11_store_bits_byte cnt
    (((⟨0, 0, 0, 0, 0⟩ : Frame).set 0 (packed_byte (fun _ => 40) cnt 0)).set 1
      (packed_byte (fun _ => 40) cnt 1)) 2 (by omega) rfl
  rw [show 8 * 2 = 0 + 8 + 8 from rfl] at h2
  rw [h2]
  have h3 := dht11_store_bits_byte cnt
    ((((⟨0, 0, 0, 0, 0⟩ : Frame).set 0 (packed_byte (fun _ => 40) cnt 0)).set 1
      (packed_byte (fun _ => 40) cnt 1)).set 2 (packed_byte (fun _ => 40) cnt 2)) 3
      (by omega) rfl
  rw [show 8 * 3 = 0 + 8 + 8 + 8 from rfl] at h3
  rw [h3]
  have h4 := dht11_store_bits_byte cnt
    (((((⟨0, 0, 0, 0, 0⟩ : Frame).set 0 (packed_byte (fun _ => 40) cnt 0)).set 1
      (packed_byte (fun _ => 40) cnt 1)).set 2 (packed_byte (fun _ => 40) cnt 2)).set 3
      (packed_byte (fun _ => 40) cnt 3)) 4 (by omega) rfl
  rw [show 8 * 4 = 0 + 8 + 8 + 8 + 8 from rfl] at h4
  rw [h4]
  rfl

/-- From a cleared array `read_dht11` packs as `dht_fetch_data` does. -/
theorem dht11_store_bits_eq (cnt : Nat → Nat) (data : Frame) :
    dht11_store_bits cnt 40 0 ⟨0, 0, 0, 0, 0⟩
      = store_bits (fun _ => 40) cnt DHT_DATA_BITS 0 data := by
  rw [dht11_store_bits_frame, store_bits_frame]

/-- The byte left in `data[b]` depends on the decisions only. -/
theorem packed_byte_congr (lo hi lo' hi' : Nat → Nat) (b : Nat) (hb : b < 5)
    (h : ∀ i, i < 40 → (lo i < hi i ↔ lo' i < hi' i)) :
    packed_byte lo hi b = packed_byte lo' hi' b := by
  have hd : ∀ m, m < 8 →
      decide (lo (8 * b + m) < hi (8 * b + m)) = decide (lo' (8 * b + m) < hi' (8 * b + m)) := by
    intro m hm
    exact decide_eq_decide.mpr (h (8 * b + m) (by omega))
  have h0 := hd 0 (by omega)
  rw [Nat.add_zero] at h0
  unfold packed_byte
  rw [h0, hd 1 (by omega), hd 2 (by omega), hd 3 (by omega), hd 4 (by omega),
    hd 5 (by omega), hd 6 (by omega), hd 7 (by omega)]

/-- Frames stored for durations with the same 40 decisions are equal. -/
theorem store_bits_congr (lo hi lo' hi' : Nat → Nat) (data data' : Frame)
    (h : ∀ i, i < 40 → (lo i < hi i ↔ lo' i < hi' i)) :
    store_bits lo hi DHT_DATA_BITS 0 data = store_bits lo' hi' DHT_DATA_BITS 0 data' := by
  rw [store_bits_frame, store_bits_frame,
    packed_byte_congr lo hi lo' hi' 0 (by omega) h, packed_byte_congr lo hi lo' hi' 1 (by omega) h,
    packed_byte_congr lo hi lo' hi' 2 (by omega) h, packed_byte_congr lo hi lo' hi' 3 (by omega) h,
    packed_byte_congr lo hi lo' hi' 4 (by omega) h]

/-! ## Conversion to `float` -/

/-- The conversion of `n < 2 ^ 24` to `float` is exact. -/
theorem f32_of_nat_toRat (n : Nat) (hn : n < 2 ^ 24) : (f32_of_nat n).toRat = n := by
  unfold f32_of_nat
  by_cases h0 : n = 0
  · simp [h0, F32.toRat]
  · obtain ⟨l, hl, h1, h2⟩ := bit_length_self n h0
    have hl24 : l < 24 := by
      by_contra hc
      have : 2 ^ 24 ≤ 2 ^ l := Nat.pow_le_pow_right (by decide) (by omega)
      omega
    simp only [h0, if_false, F32.toRat, hl]
    have e1 : 24 - (l + 1) = 23 - l := by omega
    have e2 : (((l + 1 : Nat) : Int) - 24) = -((23 - l : Nat) : Int) := by omega
    rw [e1, e2, zpow_neg, zpow_natCast]
    push_cast
    field_simp

/-- The conversion gives `0.0` for `0` only. -/
theorem f32_of_nat_is_zero (n : Nat) : f32_is_zero (f32_of_nat n) = true ↔ n = 0 := by
  unfold f32_of_nat f32_is_zero
  by_cases h0 : n = 0
  · simp [h0]
  · simp only [h0, if_false, beq_iff_eq, iff_false]
    have : 0 < n * 2 ^ (24 - bit_length n n) :=
      Nat.mul_pos (Nat.pos_of_ne_zero h0) (Nat.pow_pos (by decide))
    omega

/-! ## What `read_dht11` returns -/

/-- A `read_dht11` that returns `false` leaves the output cells as they were;
one that returns `true` has stored the conversions of `data[2]` and `data[0]`
of a frame that passes the checksum test. -/
theorem main_read_cells (pin : Nat → Bool) (temperature humidity : F32) :
    ((main_read_dht11 pin temperature humidity).ret = false →
      (main_read_dht11 pin temperature humidity).temperature = temperature ∧
      (main_read_dht11 pin temperature humidity).humidity = humidity) ∧
    ((main_read_dht11 pin temperature humidity).ret = true →
      (main_read_dht11 pin temperature humidity).temperature
        = f32_of_nat ((main_read_dht11 pin temperature humidity).data.get 2) ∧
      (main_read_dht11 pin temperature humidity).humidity
        = f32_of_nat ((main_read_dht11 pin temperature humidity).data.get 0) ∧
      ((main_read_dht11 pin temperature humidity).data.get 0
        + (main_read_dht11 pin temperature humidity).data.get 1
        + (main_read_dht11 pin temperature humidity).data.get 2
        + (main_read_dht11 pin temperature humidity).data.get 3) % 256
        = (main_read_dht11 pin temperature humidity).data.get 4) := by
  rcases main_read_spec pin temperature humidity with
    ⟨k, w, data', _, _, _, h⟩ | ⟨last, _, _, h⟩
  · rw [h]
    exact ⟨fun _ => ⟨rfl, rfl⟩, fun hc => by cases hc⟩
  · rw [h]
    unfold dht11_parse
    by_cases hsum : (Frame.get (dht11_store_bits (dht11_high_count pin) 40 0 ⟨0, 0, 0, 0, 0⟩) 0
        + Frame.get (dht11_store_bits (dht11_high_count pin) 40 0 ⟨0, 0, 0, 0, 0⟩) 1
        + Frame.get (dht11_store_bits (dht11_high_count pin) 40 0 ⟨0, 0, 0, 0, 0⟩) 2
        + Frame.get (dht11_store_bits (dht11_high_count pin) 40 0 ⟨0, 0, 0, 0, 0⟩) 3) % 256
        = Frame.get (dht11_store_bits (dht11_high_count pin) 40 0 ⟨0, 0, 0, 0, 0⟩) 4
    · rw [if_neg (not_not.mpr hsum)]
      exact ⟨fun hc => (by cases hc), fun _ => ⟨rfl, rfl, hsum⟩⟩
    · rw [if_pos hsum]
      exact ⟨fun _ => ⟨rfl, rfl⟩, fun hc => by cases hc⟩

set_option maxRecDepth 8000

/-! ## Complete captures -/

theorem dht11_parse_data (data : Frame) (temperature humidity : F32) (pos : Nat) :
    (dht11_parse data temperature humidity pos).data = data := by
  unfold dht11_parse
  split <;> rfl

/-- When all 83 waits succeed, `read_dht11` parses the frame packed from the
decisions `40 < dht11_high_count pin i`. -/
theorem main_read_complete (pin : Nat → Bool) (temperature humidity : F32)
    (hq : ∀ k, k < 83 →
      (dht11_wait_nth pin k).map (fun w => decide (w.1 < 100)) = some true) :
    ∃ pos, main_read_dht11 pin temperature humidity
      = dht11_parse
          (store_bits (fun _ => 40) (dht11_high_count pin) DHT_DATA_BITS 0 ⟨0, 0, 0, 0, 0⟩)
          temperature humidity pos := by
  rcases main_read_spec pin temperature humidity with
    ⟨k, w, data', hk, hw, hwr, _⟩ | ⟨last, _, _, h⟩
  · have := hq k hk
    rw [hw] at this
    simp only [Option.map_some', Option.some.injEq, decide_eq_true_eq] at this
    omega
  · exact ⟨last.2, by rw [h, dht11_store_bits_eq]⟩

/-- When all 83 awaits succeed, `dht_fetch_data` returns `ESP_OK` with the
frame packed from the decisions `low_duration i < high_duration i`. -/
theorem fetch_complete (fuel : Nat) (hfuel : 44 ≤ fuel) (pin : Nat → Bool) (data : Frame)
    (hp : ∀ k, k < 83 → (await_nth fuel pin k).map (fun a => a.ret) = some 1) :
    ∃ pos, dht_fetch_data fuel pin data
      = some ⟨.ESP_OK,
          store_bits (low_duration fuel pin) (high_duration fuel pin) DHT_DATA_BITS 0 data,
          pos, none⟩ := by
  rcases fetch_spec fuel hfuel pin data with ⟨k, a, data', hk, ha, har, _⟩ | ⟨last, _, _, h⟩
  · have := hp k hk
    rw [ha] at this
    simp [har] at this
  · exact ⟨last.pos, h⟩

/-- The result of `dht_read_data` for a DHT11 on a captured frame. -/
theorem read_data_dht11_eq (fuel : Nat) (pin : Nat → Bool) (humidity temperature : Int)
    (f : FetchResult) (hf : dht_fetch_data fuel pin ⟨0, 0, 0, 0, 0⟩ = some f)
    (hok : f.status = .ESP_OK) :
    dht_read_data fuel .DHT_TYPE_DHT11 pin humidity temperature
      = some (if f.data.get 4 ≠ (f.data.get 0 + f.data.get 1 + f.data.get 2 + f.data.get 3) % 256
          then ⟨.ESP_ERR_INVALID_CRC, humidity, temperature, f.pos, some .checksum_failed⟩
          else ⟨.ESP_OK, to_int16 ((f.data.get 0 * 10 : Nat) : Int),
            to_int16 ((f.data.get 2 * 10 : Nat) : Int), f.pos, none⟩) := by
  unfold dht_read_data
  simp only [hf, hok, ne_eq, not_true_eq_false, if_false, and_255, if_true]
  split <;> simp

/-! ## The claims about `main.c` -/

/-- C12: the two decoders decide a bit by different rules.  On a complete
capture `dht_fetch_data` sets bit `i` of the frame exactly when
`high_duration i > low_duration i`, and `read_dht11` sets it exactly when the
poll count of the high phase exceeds 40, whatever the low phase was.  The rules
disagree in both directions on observations below both timeouts: for
`(low, high) = (10, 30)` the bit is 1 in `dht_fetch_data` and 0 in
`read_dht11`, for `(60, 50)` it is 0 in `dht_fetch_data` and 1 in
`read_dht11`. -/
theorem bit_rules_differ (fuel : Nat) (hfuel : 44 ≤ fuel) (p q : Nat → Bool) (data : Frame)
    (temperature humidity : F32)
    (hp : ∀ k, k < 83 → (await_nth fuel p k).map (fun a => a.ret) = some 1)
    (hq : ∀ k, k < 83 →
      (dht11_wait_nth q k).map (fun w => decide (w.1 < 100)) = some true) :
    (∃ f, dht_fetch_data fuel p data = some f ∧
      ∀ i, i < 40 →
        ((f.data.get (i / 8)).testBit (7 - i % 8) = true
          ↔ high_duration fuel p i > low_duration fuel p i)) ∧
    (∀ i, i < 40 →
      (((main_read_dht11 q temperature humidity).data.get (i / 8)).testBit (7 - i % 8) = true
        ↔ dht11_high_count q i > 40)) ∧
    (low_duration 44 (pulse_pin 5 15) 0 = 10 ∧ high_duration 44 (pulse_pin 5 15) 0 = 30 ∧
      dht11_low_count (pulse_pin 10 30) 0 = 10 ∧ dht11_high_count (pulse_pin 10 30) 0 = 30 ∧
      (dht_fetch_data 44 (pulse_pin 5 15) ⟨0, 0, 0, 0, 0⟩).map (fun f => f.data.b0.testBit 7)
        = some true ∧
      (main_read_dht11 (pulse_pin 10 30) ⟨0, 0⟩ ⟨0, 0⟩).data.b0.testBit 7 = false) ∧
    (low_duration 44 (pulse_pin 30 25) 0 = 60 ∧ high_duration 44 (pulse_pin 30 25) 0 = 50 ∧
      dht11_low_count (pulse_pin 60 50) 0 = 60 ∧ dht11_high_count (pulse_pin 60 50) 0 = 50 ∧
      (dht_fetch_data 44 (pulse_pin 30 25) ⟨0, 0, 0, 0, 0⟩).map (fun f => f.data.b0.testBit 7)
        = some false ∧
      (main_read_dht11 (pulse_pin 60 50) ⟨0, 0⟩ ⟨0, 0⟩).data.b0.testBit 7 = true) ∧
    (10 < DHT_TIMEOUT_US ∧ 30 < DHT_TIMEOUT_US ∧ 60 < DHT_TIMEOUT_US ∧ 50 < DHT_TIMEOUT_US ∧
      60 < 100) := by
  refine ⟨?_, ?_, ⟨by decide, by decide, by decide, by decide, by decide, by decide⟩,
    ⟨by decide, by decide, by decide, by decide, by decide, by decide⟩, by decide⟩
  · obtain ⟨pos, h⟩ := fetch_complete fuel hfuel p data hp
    refine ⟨_, h, ?_⟩
    intro i hi
    have hb := store_bits_testBit (low_duration fuel p) (high_duration fuel p) data i hi
    show Nat.testBit (Frame.get (store_bits _ _ _ _ _) _) _ = true ↔ _
    rw [hb.1]
    simp
  · obtain ⟨pos, h⟩ := main_read_complete q temperature humidity hq
    intro i hi
    rw [h, dht11_parse_data]
    have hb := store_bits_testBit (fun _ => 40) (dht11_high_count q) ⟨0, 0, 0, 0, 0⟩ i hi
    rw [hb.1]
    simp

/-- Witness of C12: a sensor sending `[2,0,1,0,3]` to each decoder, with a long
high phase of 2 samples for `dht_fetch_data` and of 43 samples for
`read_dht11`. -/
theorem bit_rules_differ_witness :
    (∀ k, k < 83 → (await_nth 44 (sensor_pin ⟨2, 0, 1, 0, 3⟩) k).map (fun a => a.ret) = some 1) ∧
    (∀ k, k < 83 →
      (dht11_wait_nth (dht11_sensor_pin ⟨2, 0, 1, 0, 3⟩) k).map (fun w => decide (w.1 < 100))
        = some true) ∧
    (∃ f, dht_fetch_data 44 (sensor_pin ⟨2, 0, 1, 0, 3⟩) ⟨9, 9, 9, 9, 9⟩ = some f ∧
      ∀ i, i < 40 →
        ((f.data.get (i / 8)).testBit (7 - i % 8) = true
          ↔ high_duration 44 (sensor_pin ⟨2, 0, 1, 0, 3⟩) i
              > low_duration 44 (sensor_pin ⟨2, 0, 1, 0, 3⟩) i)) ∧
    (∀ i, i < 40 →
      (((main_read_dht11 (dht11_sensor_pin ⟨2, 0, 1, 0, 3⟩) ⟨0, 0⟩ ⟨0, 0⟩).data.get
          (i / 8)).testBit (7 - i % 8) = true
        ↔ dht11_high_count (dht11_sensor_pin ⟨2, 0, 1, 0, 3⟩) i > 40)) :=
  have h := bit_rules_differ 44 (le_refl 44) (sensor_pin ⟨2, 0, 1, 0, 3⟩)
    (dht11_sensor_pin ⟨2, 0, 1, 0, 3⟩) ⟨9, 9, 9, 9, 9⟩ ⟨0, 0⟩ ⟨0, 0⟩ (by decide) (by decide)
  ⟨by decide, by decide, h.1, h.2.1⟩

/-- C13 (amended): when `read_dht11` fails, `dht11_task` overwrites the cached
reading with `(0.0, 0.0)`, the value that `sensor_check_task` reads as "no
data"; the previous reading is not kept.  When `read_dht11` succeeds the cache
holds `((float)data[2], (float)data[0])`.  The cache after a failed read
therefore differs from the cache after a successful read exactly when that read
has `data[0] ≠ 0` or `data[2] ≠ 0`. -/
theorem task_cache (pin : Nat → Bool) (s : TaskState) :
    ((main_read_dht11 pin s.temp s.hum).ret = false →
      (dht11_task_step pin s).room_temp = ⟨0, 0⟩ ∧
      (dht11_task_step pin s).room_humidity = ⟨0, 0⟩ ∧
      sensor_connectivity (dht11_task_step pin s) = false) ∧
    ((main_read_dht11 pin s.temp s.hum).ret = true →
      (dht11_task_step pin s).room_temp
        = f32_of_nat ((main_read_dht11 pin s.temp s.hum).data.get 2) ∧
      (dht11_task_step pin s).room_humidity
        = f32_of_nat ((main_read_dht11 pin s.temp s.hum).data.get 0) ∧
      (((dht11_task_step pin s).room_temp = ⟨0, 0⟩ ∧
          (dht11_task_step pin s).room_humidity = ⟨0, 0⟩)
        ↔ ((main_read_dht11 pin s.temp s.hum).data.get 0 = 0 ∧
            (main_read_dht11 pin s.temp s.hum).data.get 2 = 0)) ∧
      (sensor_connectivity (dht11_task_step pin s) = false
        ↔ ((main_read_dht11 pin s.temp s.hum).data.get 0 = 0 ∧
            (main_read_dht11 pin s.temp s.hum).data.get 2 = 0))) := by
  have hz : ∀ n : Nat, f32_of_nat n = ⟨0, 0⟩ ↔ n = 0 := by
    intro n
    constructor
    · intro h
      have := (f32_of_nat_is_zero n).mp (by rw [h]; rfl)
      exact this
    · intro h; subst h; rfl
  obtain ⟨_, hc2⟩ := main_read_cells pin s.temp s.hum
  constructor
  · intro hr
    simp [dht11_task_step, hr, sensor_connectivity, f32_is_zero]
  · intro hr
    obtain ⟨ht, hh, _⟩ := hc2 hr
    have e1 : (dht11_task_step pin s).room_temp
        = f32_of_nat ((main_read_dht11 pin s.temp s.hum).data.get 2) := by
      simp [dht11_task_step, hr, f32_isnan, ht]
    have e2 : (dht11_task_step pin s).room_humidity
        = f32_of_nat ((main_read_dht11 pin s.temp s.hum).data.get 0) := by
      simp [dht11_task_step, hr, f32_isnan, hh]
    refine ⟨e1, e2, ?_, ?_⟩
    · rw [e1, e2, hz, hz]
      exact And.comm
    · unfold sensor_connectivity
      rw [e1, e2]
      have a0 := f32_of_nat_is_zero ((main_read_dht11 pin s.temp s.hum).data.get 0)
      have a2 := f32_of_nat_is_zero ((main_read_dht11 pin s.temp s.hum).data.get 2)
      simp only [Bool.not_eq_false', Bool.and_eq_true, a0, a2]
      exact And.comm

/-- Witness of C13 (amended): from a cache holding 25.0 and 30.0, a pin that
stays high makes `read_dht11` fail and the cache become `(0.0, 0.0)`; a sensor
sending `[35,0,21,0,56]` makes the cache 21.0 and 35.0. -/
theorem task_cache_witness :
    (main_read_dht11 (fun _ => true) (f32_of_nat 25) (f32_of_nat 30)).ret = false ∧
    dht11_task_step (fun _ => true) ⟨f32_of_nat 25, f32_of_nat 30, f32_of_nat 25, f32_of_nat 30⟩
      = ⟨⟨0, 0⟩, ⟨0, 0⟩, f32_of_nat 25, f32_of_nat 30⟩ ∧
    (main_read_dht11 (dht11_sensor_pin ⟨35, 0, 21, 0, 56⟩) (f32_of_nat 25) (f32_of_nat 30)).ret
      = true ∧
    (dht11_task_step (dht11_sensor_pin ⟨35, 0, 21, 0, 56⟩)
        ⟨f32_of_nat 25, f32_of_nat 30, f32_of_nat 25, f32_of_nat 30⟩).room_temp
      = f32_of_nat 21 ∧
    (dht11_task_step (dht11_sensor_pin ⟨35, 0, 21, 0, 56⟩)
        ⟨f32_of_nat 25, f32_of_nat 30, f32_of_nat 25, f32_of_nat 30⟩).room_humidity
      = f32_of_nat 35 :=
  have hfail : (main_read_dht11 (fun _ => true) (f32_of_nat 25) (f32_of_nat 30)).ret = false := by
    decide
  have hok : (main_read_dht11 (dht11_sensor_pin ⟨35, 0, 21, 0, 56⟩) (f32_of_nat 25)
      (f32_of_nat 30)).ret = true := by decide
  have hdata : (main_read_dht11 (dht11_sensor_pin ⟨35, 0, 21, 0, 56⟩) (f32_of_nat 25)
      (f32_of_nat 30)).data = ⟨35, 0, 21, 0, 56⟩ := by decide
  have h1 := (task_cache (fun _ => true)
    ⟨f32_of_nat 25, f32_of_nat 30, f32_of_nat 25, f32_of_nat 30⟩).1 hfail
  have h2 := (task_cache (dht11_sensor_pin ⟨35, 0, 21, 0, 56⟩)
    ⟨f32_of_nat 25, f32_of_nat 30, f32_of_nat 25, f32_of_nat 30⟩).2 hok
  ⟨hfail, by decide, hok, by rw [h2.1, hdata]; rfl, by rw [h2.2.1, hdata]; rfl⟩

/-- Counterexample to C13 as stated: from a cache holding 25.0 and 30.0, a
failed `read_dht11` (the pin stays high) and a successful `read_dht11` of the
checksum-valid frame `[0,0,0,0,0]` leave the same cache `(0.0, 0.0)`, which is
not the previous reading, and the same `sensor_connectivity`. -/
theorem task_cache_failure_is_zero_reading :
    (main_read_dht11 (fun _ => true) (f32_of_nat 25) (f32_of_nat 30)).ret = false ∧
    (main_read_dht11 (sensor_pin ⟨0, 0, 0, 0, 0⟩) (f32_of_nat 25) (f32_of_nat 30)).ret = true ∧
    (main_read_dht11 (sensor_pin ⟨0, 0, 0, 0, 0⟩) (f32_of_nat 25) (f32_of_nat 30)).data
      = ⟨0, 0, 0, 0, 0⟩ ∧
    (dht11_task_step (fun _ => true)
        ⟨f32_of_nat 25, f32_of_nat 30, f32_of_nat 25, f32_of_nat 30⟩).room_temp = ⟨0, 0⟩ ∧
    (dht11_task_step (fun _ => true)
        ⟨f32_of_nat 25, f32_of_nat 30, f32_of_nat 25, f32_of_nat 30⟩).room_humidity = ⟨0, 0⟩ ∧
    (dht11_task_step (sensor_pin ⟨0, 0, 0, 0, 0⟩)
        ⟨f32_of_nat 25, f32_of_nat 30, f32_of_nat 25, f32_of_nat 30⟩).room_temp = ⟨0, 0⟩ ∧
    (dht11_task_step (sensor_pin ⟨0, 0, 0, 0, 0⟩)
        ⟨f32_of_nat 25, f32_of_nat 30, f32_of_nat 25, f32_of_nat 30⟩).room_humidity = ⟨0, 0⟩ ∧
    f32_of_nat 25 ≠ ⟨0, 0⟩ ∧
    sensor_connectivity (dht11_task_step (fun _ => true)
        ⟨f32_of_nat 25, f32_of_nat 30, f32_of_nat 25, f32_of_nat 30⟩)
      = sensor_connectivity (dht11_task_step (sensor_pin ⟨0, 0, 0, 0, 0⟩)
        ⟨f32_of_nat 25, f32_of_nat 30, f32_of_nat 25, f32_of_nat 30⟩) :=
  ⟨by decide, by decide, by decide, by decide, by decide, by decide, by decide, by decide,
    by decide⟩

/-- C14: given the same 40 decided bits, `read_dht11` and the DHT11 path of
the library agree.  When both captures are complete and bit `i` is decided
alike (`high_duration i > low_duration i` exactly when the poll count of
`read_dht11` exceeds 40), the shift-left packing of `read_dht11` leaves the
same five bytes as the MSB-first packing of `dht_fetch_data`, `read_dht11`
returns `true` exactly when `dht_read_data` returns `ESP_OK`, and then
`dht_read_data` returns 10 times the humidity and the temperature of
`read_dht11`. -/
theorem decoders_agree (fuel : Nat) (hfuel : 44 ≤ fuel) (p q : Nat → Bool)
    (humidity temperature : Int) (ftemperature fhumidity : F32)
    (hp : ∀ k, k < 83 → (await_nth fuel p k).map (fun a => a.ret) = some 1)
    (hq : ∀ k, k < 83 →
      (dht11_wait_nth q k).map (fun w => decide (w.1 < 100)) = some true)
    (hbits : ∀ i, i < 40 →
      (high_duration fuel p i > low_duration fuel p i ↔ dht11_high_count q i > 40)) :
    ∃ f r, dht_fetch_data fuel p ⟨0, 0, 0, 0, 0⟩ = some f ∧ f.status = .ESP_OK ∧
      dht_read_data fuel .DHT_TYPE_DHT11 p humidity temperature = some r ∧
      (main_read_dht11 q ftemperature fhumidity).data = f.data ∧
      ((main_read_dht11 q ftemperature fhumidity).ret = true ↔ r.status = .ESP_OK) ∧
      (r.status = .ESP_OK →
        (r.humidity : ℚ) = 10 * (main_read_dht11 q ftemperature fhumidity).humidity.toRat ∧
        (r.temperature : ℚ)
          = 10 * (main_read_dht11 q ftemperature fhumidity).temperature.toRat) := by
  obtain ⟨pos, hf⟩ := fetch_complete fuel hfuel p ⟨0, 0, 0, 0, 0⟩ hp
  obtain ⟨pos', hm⟩ := main_read_complete q ftemperature fhumidity hq
  have hframe : store_bits (fun _ => 40) (dht11_high_count q) DHT_DATA_BITS 0 ⟨0, 0, 0, 0, 0⟩
      = store_bits (low_duration fuel p) (high_duration fuel p) DHT_DATA_BITS 0
          ⟨0, 0, 0, 0, 0⟩ :=
    store_bits_congr _ _ _ _ _ _ (fun i hi => (hbits i hi).symm)
  rw [hframe] at hm
  generalize hD : store_bits (low_duration fuel p) (high_duration fuel p) DHT_DATA_BITS 0
    ⟨0, 0, 0, 0, 0⟩ = D at hf hm
  have hb0 : D.get 0 < 256 := fetch_ok_bytes fuel hfuel p _ _ hf rfl 0
  have hb2 : D.get 2 < 256 := fetch_ok_bytes fuel hfuel p _ _ hf rfl 2
  have hr := read_data_dht11_eq fuel p humidity temperature _ hf rfl
  refine ⟨_, _, hf, rfl, hr, ?_, ?_, ?_⟩
  · rw [hm, dht11_parse_data]
  · rw [hm]
    unfold dht11_parse
    by_cases hsum : (D.get 0 + D.get 1 + D.get 2 + D.get 3) % 256 = D.get 4
    · have hsum' : ¬ D.get 4 ≠ (D.get 0 + D.get 1 + D.get 2 + D.get 3) % 256 :=
        not_not.mpr hsum.symm
      rw [if_neg (not_not.mpr hsum), if_neg hsum']
      exact ⟨fun _ => rfl, fun _ => rfl⟩
    · have hsum' : D.get 4 ≠ (D.get 0 + D.get 1 + D.get 2 + D.get 3) % 256 :=
        fun h => hsum h.symm
      rw [if_pos hsum, if_pos hsum']
      exact ⟨fun h => (by cases h), fun h => (by cases h)⟩
  · rw [hm]
    unfold dht11_parse
    by_cases hsum : (D.get 0 + D.get 1 + D.get 2 + D.get 3) % 256 = D.get 4
    · have hsum' : ¬ D.get 4 ≠ (D.get 0 + D.get 1 + D.get 2 + D.get 3) % 256 :=
        not_not.mpr hsum.symm
      rw [if_neg (not_not.mpr hsum), if_neg hsum']
      intro _
      show ((to_int16 ((D.get 0 * 10 : Nat) : Int) : Int) : ℚ) = 10 * (f32_of_nat (D.get 0)).toRat
        ∧ ((to_int16 ((D.get 2 * 10 : Nat) : Int) : Int) : ℚ) = 10 * (f32_of_nat (D.get 2)).toRat
      rw [f32_of_nat_toRat _ (by omega), f32_of_nat_toRat _ (by omega),
        to_int16_of_lt _ (by omega), to_int16_of_lt _ (by omega)]
      push_cast
      constructor <;> ring
    · have hsum' : D.get 4 ≠ (D.get 0 + D.get 1 + D.get 2 + D.get 3) % 256 :=
        fun h => hsum h.symm
      rw [if_pos hsum']
      intro h
      cases h

/-- Witness of C14: a sensor sending `[2,0,1,0,3]` to each decoder:
`dht_read_data` gives 20 and 10 tenths, `read_dht11` gives 2.0 and 1.0. -/
theorem decoders_agree_witness :
    (∀ i, i < 40 →
      (high_duration 44 (sensor_pin ⟨2, 0, 1, 0, 3⟩) i > low_duration 44 (sensor_pin ⟨2, 0, 1, 0, 3⟩) i
        ↔ dht11_high_count (dht11_sensor_pin ⟨2, 0, 1, 0, 3⟩) i > 40)) ∧
    dht_read_data 44 .DHT_TYPE_DHT11 (sensor_pin ⟨2, 0, 1, 0, 3⟩) 0 0
      = some ⟨.ESP_OK, 20, 10, 87, none⟩ ∧
    main_read_dht11 (dht11_sensor_pin ⟨2, 0, 1, 0, 3⟩) ⟨0, 0⟩ ⟨0, 0⟩
      = ⟨true, f32_of_nat 1, f32_of_nat 2, ⟨2, 0, 1, 0, 3⟩, 251⟩ ∧
    ∃ f r, dht_fetch_data 44 (sensor_pin ⟨2, 0, 1, 0, 3⟩) ⟨0, 0, 0, 0, 0⟩ = some f ∧
      f.status = .ESP_OK ∧
      dht_read_data 44 .DHT_TYPE_DHT11 (sensor_pin ⟨2, 0, 1, 0, 3⟩) 0 0 = some r ∧
      (main_read_dht11 (dht11_sensor_pin ⟨2, 0, 1, 0, 3⟩) ⟨0, 0⟩ ⟨0, 0⟩).data = f.data ∧
      ((main_read_dht11 (dht11_sensor_pin ⟨2, 0, 1, 0, 3⟩) ⟨0, 0⟩ ⟨0, 0⟩).ret = true
        ↔ r.status = .ESP_OK) ∧
      (r.status = .ESP_OK →
        (r.humidity : ℚ)
          = 10 * (main_read_dht11 (dht11_sensor_pin ⟨2, 0, 1, 0, 3⟩) ⟨0, 0⟩ ⟨0, 0⟩).humidity.toRat ∧
        (r.temperature : ℚ)
          = 10 * (main_read_dht11 (dht11_sensor_pin ⟨2, 0, 1, 0, 3⟩) ⟨0, 0⟩
              ⟨0, 0⟩).temperature.toRat) :=
  ⟨by decide, by decide, by decide,
    decoders_agree 44 (le_refl 44) (sensor_pin ⟨2, 0, 1, 0, 3⟩) (dht11_sensor_pin ⟨2, 0, 1, 0, 3⟩)
      0 0 ⟨0, 0⟩ ⟨0, 0⟩ (by decide) (by decide) (by decide)⟩

end DHT
